import Mathlib

/-!
Verification of the RCM claim-adjudication core (masrialx/RCM-backend).

This file gives a shallow embedding, in Lean 4, of the deterministic
rule-evaluation and classification engine of the repository:

* `Validator.run_all` from `rcm_app/utils/validators.py` — the production
  adjudication routine (stages are embedded one-to-one with the source's
  sequential blocks);
* the modular rules of `rcm_app/rules/engine.py` (`ServiceApprovalRule`,
  `PaidThresholdApprovalRule`, `FacilityTypeRule`,
  `ServiceDiagnosisDependencyRule`);
* the tenant-configuration post-processing of
  `TenantConfigLoader.load_rules_for_tenant` from `rcm_app/rules/loader.py`;
* `reconcile_error_type` from `rcm_app/pipeline/engine.py`;
* the MD5 hash (RFC 1321), since `Validator._generate_approval_number`
  derives approval numbers from `md5(seed).hexdigest()[:6]`.

Python strings are modelled as `String` (ASCII-faithful: `.strip()` as
`pyStrip`, `.upper()` as `pyUpper`), Python `None`-able strings as
`Option String`, numeric amounts as `ℚ` (the comparisons and decimal
renderings performed by the source are exact on the decimal values it
handles), Python sets of category strings as `Finset String`, and Python
dicts as association lists looked up by key.
-/

set_option maxRecDepth 100000

namespace RCM

/-- Python truthiness of an optional string: `None` and `""` are falsy. -/
def truthy : Option String → Bool
  | none => false
  | some s => s ≠ ""

/-- Python `x or ""` for an optional string (`None` and `""` both give `""`). -/
def orEmpty (o : Option String) : String := o.getD ""

/-- Python `f"{x}"` on an optional string: `None` prints as `"None"`. -/
def pyShowOpt : Option String → String
  | none => "None"
  | some s => s

/-- Python `s.upper()` (ASCII): uppercase every character. -/
def pyUpper (s : String) : String := String.mk (s.data.map Char.toUpper)

/-- Python `s.strip()`: drop whitespace from both ends. -/
def pyStrip (s : String) : String :=
  String.mk (((s.data.dropWhile Char.isWhitespace).reverse.dropWhile
    Char.isWhitespace).reverse)

/-- Python `s.startswith(pre)`. -/
def pyStartsWith (s pre : String) : Bool := pre.data.isPrefixOf s.data

/-- Dict lookup (`d.get(k)`): first binding of the key in an association list. -/
def alookup {α : Type} (l : List (String × α)) (k : String) : Option α :=
  (l.find? (fun p => p.1 == k)).map (·.2)

/-- Dict assignment (`d[k] = v`): replace the binding if present, else append. -/
def aset {α : Type} (l : List (String × α)) (k : String) (v : α) :
    List (String × α) :=
  if (l.find? (fun p => p.1 == k)).isSome then
    l.map (fun p => if p.1 == k then (k, v) else p)
  else l ++ [(k, v)]

/-- Dict `d.setdefault(k, v)`: insert only when the key is absent. -/
def asetdefault {α : Type} (l : List (String × α)) (k : String) (v : α) :
    List (String × α) :=
  if (l.find? (fun p => p.1 == k)).isSome then l else l ++ [(k, v)]

/-- Python `", ".join(l)`. -/
def joinComma (l : List String) : String := String.intercalate ", " l

/-- Helper for `dedupFirst`: drop the elements already seen. -/
def dedupFirstAux (seen : List String) : List String → List String
  | [] => []
  | x :: xs =>
      if x ∈ seen then dedupFirstAux seen xs
      else x :: dedupFirstAux (x :: seen) xs

/-- `list(dict.fromkeys(l))`: drop duplicates, keeping each first occurrence. -/
def dedupFirst (l : List String) : List String := dedupFirstAux [] l

/-- Insertion step for sorting strings (Python `sorted`, ascending). -/
def insertStr (x : String) : List String → List String
  | [] => [x]
  | y :: ys => if x ≤ y then x :: y :: ys else y :: insertStr x ys

/-- Python `sorted(l)` on strings (insertion sort, ascending). -/
def sortStr (l : List String) : List String := l.foldr insertStr []

/-! ### Python `str(float)` on decimal values

`Validator.run_all` interpolates the float `paid` and `threshold` values into
message and seed strings (`f"{paid}"`).  For a non-negative decimal number
Python renders the shortest decimal form with at least one fractional digit
(`str(250.0) = "250.0"`, `str(805.73) = "805.73"`).  `floatStr` reproduces
that rendering for rationals with a terminating decimal expansion (all values
the source handles). -/

/-- Number of decimal digits needed for `q` (smallest `k ≤ 17` with
`q·10^k` integral; `17` when none). -/
def decExp (q : ℚ) : Nat :=
  ((List.range 18).find? (fun k => (q * 10 ^ k).den == 1)).getD 17

/-- Python `str(float)` of a decimal-representable rational. -/
def floatStr (q : ℚ) : String :=
  let sign := if q < 0 then "-" else ""
  let a := |q|
  let k := max 1 (decExp a)
  let n := (a * 10 ^ k).num.toNat
  let s := toString n
  let s := String.mk (List.replicate (k + 1 - s.length) '0') ++ s
  sign ++ String.mk (s.data.take (s.data.length - k)) ++ "." ++
    String.mk (s.data.drop (s.data.length - k))

/-! ### MD5 (RFC 1321)

`Validator._generate_approval_number` computes
`int(hashlib.md5(seed.encode("utf-8")).hexdigest()[:6], 16) % 900 + 100`.
We embed MD5 over byte lists, with 32-bit words as `Nat` values reduced
modulo `2^32`. -/

namespace MD5

/-- Reduce modulo `2^32`. -/
def u32 (n : Nat) : Nat := n % 4294967296

/-- 32-bit bitwise complement. -/
def compl32 (x : Nat) : Nat := Nat.xor x 4294967295

/-- 32-bit left rotation (valid for `x < 2^32`, `0 < c < 32`). -/
def rotl (x c : Nat) : Nat := u32 (x * 2 ^ c + x / 2 ^ (32 - c))

/-- Per-round additive constants `K[i] = ⌊|sin(i+1)|·2^32⌋`. -/
def K : List Nat :=
  [3614090360, 3905402710, 606105819, 3250441966, 4118548399, 1200080426,
   2821735955, 4249261313, 1770035416, 2336552879, 4294925233, 2304563134,
   1804603682, 4254626195, 2792965006, 1236535329, 4129170786, 3225465664,
   643717713, 3921069994, 3593408605, 38016083, 3634488961, 3889429448,
   568446438, 3275163606, 4107603335, 1163531501, 2850285829, 4243563512,
   1735328473, 2368359562, 4294588738, 2272392833, 1839030562, 4259657740,
   2763975236, 1272893353, 4139469664, 3200236656, 681279174, 3936430074,
   3572445317, 76029189, 3654602809, 3873151461, 530742520, 3299628645,
   4096336452, 1126891415, 2878612391, 4237533241, 1700485571, 2399980690,
   4293915773, 2240044497, 1873313359, 4264355552, 2734768916, 1309151649,
   4149444226, 3174756917, 718787259, 3951481745]

/-- Per-round left-rotation amounts. -/
def S : List Nat :=
  [7, 12, 17, 22, 7, 12, 17, 22, 7, 12, 17, 22, 7, 12, 17, 22,
   5, 9, 14, 20, 5, 9, 14, 20, 5, 9, 14, 20, 5, 9, 14, 20,
   4, 11, 16, 23, 4, 11, 16, 23, 4, 11, 16, 23, 4, 11, 16, 23,
   6, 10, 15, 21, 6, 10, 15, 21, 6, 10, 15, 21, 6, 10, 15, 21]

/-- Round function and message-word index for round `i` with state `b c d`. -/
def roundF (i b c d : Nat) : Nat × Nat :=
  if i < 16 then
    (Nat.lor (Nat.land b c) (Nat.land (compl32 b) d), i % 16)
  else if i < 32 then
    (Nat.lor (Nat.land d b) (Nat.land (compl32 d) c), (5 * i + 1) % 16)
  else if i < 48 then
    (Nat.xor b (Nat.xor c d), (3 * i + 5) % 16)
  else
    (Nat.xor c (Nat.lor b (compl32 d)), (7 * i) % 16)

/-- One MD5 round: update `(a,b,c,d)` with round index `i` and block `M`. -/
def step (M : List Nat) (st : Nat × Nat × Nat × Nat) (i : Nat) :
    Nat × Nat × Nat × Nat :=
  let (a, b, c, d) := st
  let (f, g) := roundF i b c d
  let rot := rotl (u32 (a + f + K.getD i 0 + M.getD g 0)) (S.getD i 0)
  (d, u32 (b + rot), b, c)

/-- Process one 64-byte block (given as 16 little-endian 32-bit words). -/
def processBlock (st : Nat × Nat × Nat × Nat) (M : List Nat) :
    Nat × Nat × Nat × Nat :=
  let (a0, b0, c0, d0) := st
  let (a, b, c, d) := (List.range 64).foldl (step M) (a0, b0, c0, d0)
  (u32 (a0 + a), u32 (b0 + b), u32 (c0 + c), u32 (d0 + d))

/-- `n` as `k` little-endian bytes. -/
def toLE (k n : Nat) : List Nat :=
  (List.range k).map (fun i => n / 256 ^ i % 256)

/-- Bytes of a 64-byte block as 16 little-endian 32-bit words. -/
def toWords (block : List Nat) : List Nat :=
  (List.range 16).map (fun j =>
    block.getD (4 * j) 0 + block.getD (4 * j + 1) 0 * 256 +
      block.getD (4 * j + 2) 0 * 65536 + block.getD (4 * j + 3) 0 * 16777216)

/-- MD5 padding: append `0x80`, zeros to 56 mod 64, then the bit length as
eight little-endian bytes. -/
def padBytes (msg : List Nat) : List Nat :=
  let len := msg.length
  let zeros := (56 - (len + 1) % 64 + 64) % 64
  msg ++ [128] ++ List.replicate zeros 0 ++ toLE 8 (len * 8 % 2 ^ 64)

/-- Split a padded byte list (whose length is a multiple of 64) into its
64-byte chunks. -/
def chunks64 (l : List Nat) : List (List Nat) :=
  (List.range (l.length / 64)).map (fun i => (l.drop (64 * i)).take 64)

/-- MD5 digest of a byte list, as 16 bytes. -/
def md5Bytes (msg : List Nat) : List Nat :=
  let blocks := (chunks64 (padBytes msg)).map toWords
  let (a, b, c, d) :=
    blocks.foldl processBlock (1732584193, 4023233417, 2562383102, 271733878)
  toLE 4 a ++ toLE 4 b ++ toLE 4 c ++ toLE 4 d

/-- UTF-8 encoding of one character (Python `str.encode("utf-8")`). -/
def utf8Char (c : Char) : List Nat :=
  let n := c.toNat
  if n < 128 then [n]
  else if n < 2048 then [192 + n / 64, 128 + n % 64]
  else if n < 65536 then [224 + n / 4096, 128 + n / 64 % 64, 128 + n % 64]
  else [240 + n / 262144, 128 + n / 4096 % 64, 128 + n / 64 % 64, 128 + n % 64]

/-- UTF-8 bytes of a string. -/
def strBytes (s : String) : List Nat := (s.data.map utf8Char).flatten

/-- `int(hashlib.md5(seed.encode("utf-8")).hexdigest()[:6], 16)`: the first
six hex digits of the digest are its first three bytes, read big-endian. -/
def md5hex6 (s : String) : Nat :=
  match md5Bytes (strBytes s) with
  | b0 :: b1 :: b2 :: _ => b0 * 65536 + b1 * 256 + b2
  | _ => 0

end MD5

/-- RFC 1321 test vector: `md5("abc") = 900150983cd24fb0d6963f7d28e17f72`. -/
example : MD5.md5hex6 "abc" = 9437520 := by decide

/-- RFC 1321 test vector: `md5("") = d41d8cd98f00b204e9800998ecf8427e`. -/
example : MD5.md5hex6 "" = 13901196 := by decide

/-! ### Data model (`rcm_app/models/models.py`, `rcm_app/rules/loader.py`) -/

/-- The `paid_amount_aed` value handed to the validator: absent (`None`), a
numeric value, or a malformed value on which `float(...)` raises. -/
inductive PaidVal
  | null
  | num (q : ℚ)
  | malformed
deriving DecidableEq

/-- `paid = float(claim.paid_amount_aed) if claim.paid_amount_aed is not None
else 0.0`, with the `except` branch substituting `0.0`
(`validators.py` and `PaidThresholdApprovalRule.apply`). -/
def PaidVal.toFloat : PaidVal → ℚ
  | .null => 0
  | .num q => q
  | .malformed => 0

/-- A claim row of the `Master` table — the fields the adjudication reads. -/
structure Master where
  claim_id : String
  encounter_type : Option String := none
  national_id : Option String := none
  member_id : Option String := none
  facility_id : Option String := none
  unique_id : Option String := none
  diagnosis_codes : List String := []
  service_code : Option String := none
  paid_amount_aed : PaidVal := .null
  approval_number : Option String := none

/-- `RulesBundle` from `rcm_app/rules/loader.py`.  The `id_rules` dict is
flattened into named fields (`uppercase_required`, `patterns`,
`inpatient_only_services`, …); Python sets and dicts of the config are
association lists whose order only matters where the source iterates them. -/
structure RulesBundle where
  services_requiring_approval : List String := []
  diagnoses : List String := []
  diagnoses_requiring_approval : List String := []
  paid_threshold_aed : ℚ := 250
  uppercase_required : Bool := true
  id_patterns : List (String × (String → Bool)) := []
  inpatient_only_services : List String := []
  outpatient_only_services : List String := []
  service_diagnosis_map : List (String × List String) := []
  mutually_exclusive_diagnoses : List (List String) := []
  facility_registry : List (String × String) := []
  service_allowed_facility_types : List (String × List String) := []

/-! ### `Validator` (`rcm_app/utils/validators.py`) -/

/-- The state `Validator.__init__` derives from the rules bundle. -/
structure Validator where
  rules : RulesBundle
  id_patterns : List (String × (String → Bool))
  uppercase_required : Bool
  inpatient_only_services : List String
  outpatient_only_services : List String
  service_diagnosis_map : List (String × List String)
  mutually_exclusive_diagnoses : List (List String)
  facility_registry : List (String × String)
  service_allowed_facility_types : List (String × List String)

/-- `Validator.__init__`: copies the configured maps and then
`self.service_diagnosis_map.update({"SRV2005": {"N39.0"}, "SRV2001":
{"R07.9"}})`, and substitutes the default mutually-exclusive group
`[{"R73.03", "E11.9"}]` when none is configured. -/
def Validator.init (rules : RulesBundle) : Validator :=
  { rules := rules
    id_patterns := rules.id_patterns
    uppercase_required := rules.uppercase_required
    inpatient_only_services := rules.inpatient_only_services
    outpatient_only_services := rules.outpatient_only_services
    service_diagnosis_map :=
      aset (aset rules.service_diagnosis_map "SRV2005" ["N39.0"])
        "SRV2001" ["R07.9"]
    mutually_exclusive_diagnoses :=
      if rules.mutually_exclusive_diagnoses = [] then [["R73.03", "E11.9"]]
      else rules.mutually_exclusive_diagnoses
    facility_registry := rules.facility_registry
    service_allowed_facility_types := rules.service_allowed_facility_types }

/-- The regex `^APP\d{3,}$` of `_is_valid_approval`: the string is `"APP"`
followed by at least three digits. -/
def isAppCode (s : String) : Bool :=
  ['A', 'P', 'P'].isPrefixOf s.data && decide (3 ≤ (s.data.drop 3).length) &&
    (s.data.drop 3).all Char.isDigit

/-- `Validator._is_valid_approval`: falsy and non-string values are invalid;
after strip/upper the sentinels `"NA"`, `"NAN"`, `"OBTAIN APPROVAL"`, `""`
are invalid; `"APPROVED"` and `APP`+digits codes are valid; everything else
is invalid. -/
def isValidApproval (approval : Option String) : Bool :=
  if ¬ truthy approval then false
  else
    let appr := pyUpper (pyStrip (orEmpty approval))
    if appr ∈ ["NA", "NAN", "OBTAIN APPROVAL", ""] then false
    else if appr = "APPROVED" then true
    else isAppCode appr

/-- `Validator._generate_approval_number`: deterministic `"APP" + (md5 of the
seed, first six hex digits, reduced to 100..999)`.  The source wraps the body
in `try/except` with fallback `"APPROVED"`, but the body (an md5 of a string)
cannot raise, so the fallback is dead code. -/
def generateApprovalNumber (seed : String) : String :=
  "APP" ++ toString (MD5.md5hex6 seed % 900 + 100)

/-- `Validator._classify` on the accumulated set of issue categories. -/
def classify (types : Finset String) : String :=
  if types = ∅ then "No error"
  else if types = {"Technical"} then "Technical error"
  else if types = {"Medical"} then "Medical error"
  else "Both"

/-- `Validator._default_actions`. -/
def defaultActions (etype : String) : List String :=
  if etype = "No error" then ["Proceed with claim processing"]
  else if etype = "Technical error" then
    ["Obtain prior approval for service", "Correct unique_id format",
     "Obtain prior approval for paid amount"]
  else if etype = "Medical error" then
    ["Change encounter type or update service code", "Review diagnosis coding"]
  else
    ["Obtain prior approval for service", "Correct unique_id format",
     "Obtain prior approval for paid amount",
     "Change encounter type or update service code", "Review diagnosis coding"]

/-- The mutable accumulators of `Validator.run_all` (`errors`, `actions`,
`types`, `corrections`).  The `corrections` dict only ever receives the key
`"approval_number"`, so it is modelled by that single optional value. -/
@[ext]
structure Acc where
  errors : List String := []
  actions : List String := []
  types : Finset String := ∅
  approval_correction : Option String := none

/-- `getattr(claim, fld, None)` for the string-valued claim fields. -/
def getField (c : Master) : String → Option String
  | "claim_id" => some c.claim_id
  | "encounter_type" => c.encounter_type
  | "national_id" => c.national_id
  | "member_id" => c.member_id
  | "facility_id" => c.facility_id
  | "unique_id" => c.unique_id
  | "service_code" => c.service_code
  | "approval_number" => c.approval_number
  | _ => none

/-- `ni[:4].ljust(4, "X")`. -/
def take4pad (s : String) : String :=
  let t := s.data.take 4
  String.mk (t ++ List.replicate (4 - t.length) 'X')

/-- `fi[-4:].rjust(4, "X")`. -/
def last4pad (s : String) : String :=
  let t := s.data.drop (s.data.length - 4)
  String.mk (List.replicate (4 - t.length) 'X' ++ t)

/-- The regex `^[A-Z0-9]{4}-[A-Z0-9]{4}-[A-Z0-9]{4}$`. -/
def uidFormatOk (s : String) : Bool :=
  s.data.length == 14 &&
    (List.range 14).all (fun i =>
      if i = 4 ∨ i = 9 then s.data.getD i ' ' == '-'
      else (s.data.getD i ' ').isUpper || (s.data.getD i ' ').isDigit)

/-- The four (field name, value) pairs examined by the uppercase check. -/
def uppercaseFlds (c : Master) : List (String × Option String) :=
  [("national_id", c.national_id), ("member_id", c.member_id),
   ("facility_id", c.facility_id), ("service_code", c.service_code)]

/-- `run_all`, structural checks: uppercase requirement on the four
identifier fields. -/
def stageUppercase (V : Validator) (c : Master) (acc : Acc) : Acc :=
  if V.uppercase_required then
    (uppercaseFlds c).foldl
      (fun a p =>
        match p.2 with
        | some v =>
            if v ≠ "" ∧ v ≠ pyUpper v then
              { a with
                  errors := a.errors ++ [p.1 ++ " must be uppercase"],
                  types := insert "Technical" a.types }
            else a
        | none => a) acc
  else acc

/-- The expected unique id
`first4(national_id)-first4(member_id)-last4(facility_id)` computed by the
unique-id content check. -/
def uidExpected (c : Master) : String :=
  take4pad (pyUpper (pyStrip (orEmpty c.national_id))) ++ "-" ++
    take4pad (pyUpper (pyStrip (orEmpty c.member_id))) ++ "-" ++
    last4pad (pyUpper (pyStrip (orEmpty c.facility_id)))

/-- `run_all`, unique-ID validation: format regex, then content against
`first4(national_id)-first4(member_id)-last4(facility_id)`. -/
def stageUniqueId (c : Master) (acc : Acc) : Acc :=
  if truthy c.unique_id then
    let acc :=
      if ¬ uidFormatOk (orEmpty c.unique_id) then
        { acc with
            errors := acc.errors ++
              ["unique_id is invalid: must be uppercase alphanumeric with hyphen-separated format (XXXX-XXXX-XXXX)"],
            types := insert "Technical" acc.types }
      else acc
    if pyUpper (pyStrip (orEmpty c.national_id)) ≠ "" ∧
        pyUpper (pyStrip (orEmpty c.member_id)) ≠ "" ∧
        pyUpper (pyStrip (orEmpty c.facility_id)) ≠ "" then
      if pyUpper (pyStrip (orEmpty c.unique_id)) ≠ uidExpected c then
        { acc with
            errors := acc.errors ++
              ["unique_id format is invalid (should be " ++ uidExpected c ++ ")."],
            types := insert "Technical" acc.types }
      else acc
    else acc
  else acc

/-- `run_all`, configured identifier patterns. -/
def stagePatterns (V : Validator) (c : Master) (acc : Acc) : Acc :=
  V.id_patterns.foldl
    (fun a p =>
      match getField c p.1 with
      | some v =>
          if v ≠ "" ∧ ¬ p.2 v then
            { a with
                errors := a.errors ++ [p.1 ++ " does not match required pattern"],
                types := insert "Technical" a.types }
          else a
      | none => a) acc

/-- `run_all`, service-requires-approval rule (with auto-generated
correction, plain dict assignment). -/
def stageServiceApproval (V : Validator) (c : Master) (acc : Acc) : Acc :=
  match c.service_code with
  | some svc =>
      if svc ≠ "" ∧ svc ∈ V.rules.services_requiring_approval then
        if ¬ isValidApproval c.approval_number then
          { acc with
              errors := acc.errors ++
                ["Service requires valid approval_number (e.g., APPROVED, APP###)"],
              actions := acc.actions ++
                ["Obtain prior approval for this service code"],
              types := insert "Technical" acc.types,
              approval_correction :=
                some (generateApprovalNumber (c.claim_id ++ ":" ++ svc)) }
        else acc
      else acc
  | none => acc

/-- `run_all`, unknown diagnosis codes. -/
def stageInvalidDiagnoses (V : Validator) (c : Master) (acc : Acc) : Acc :=
  let invalid := c.diagnosis_codes.filter (fun d => decide (d ∉ V.rules.diagnoses))
  if invalid ≠ [] then
    { acc with
        errors := acc.errors ++ ["invalid diagnosis codes: " ++ joinComma invalid],
        types := insert "Medical" acc.types }
  else acc

/-- `run_all`, mutually exclusive diagnosis groups. -/
def stageMutex (V : Validator) (c : Master) (acc : Acc) : Acc :=
  V.mutually_exclusive_diagnoses.foldl
    (fun a group =>
      let overlap := dedupFirst (group.filter (fun d => decide (d ∈ c.diagnosis_codes)))
      if 1 < overlap.length then
        { a with
            errors := a.errors ++
              ["mutually exclusive diagnoses present together: " ++
                joinComma (sortStr overlap)],
            types := insert "Medical" a.types }
      else a) acc

/-- `run_all`, diagnoses requiring prior approval (correction via
`corrections.setdefault`). -/
def stageDiagApproval (V : Validator) (c : Master) (acc : Acc) : Acc :=
  c.diagnosis_codes.foldl
    (fun a dx =>
      if dx ∈ V.rules.diagnoses_requiring_approval then
        if ¬ isValidApproval c.approval_number then
          { a with
              errors := a.errors ++
                ["Diagnosis " ++ dx ++ " requires prior approval; invalid approval_number"],
              actions := a.actions ++
                ["Obtain prior approval for diagnosis-driven services"],
              types := insert "Medical" a.types,
              approval_correction :=
                match a.approval_correction with
                | some g => some g
                | none => some (generateApprovalNumber (c.claim_id ++ ":" ++ dx)) }
        else a
      else a) acc

/-- `run_all`, service–diagnosis compatibility (exact or code-as-start-of
match against the required set). -/
def stageServiceDiag (V : Validator) (c : Master) (acc : Acc) : Acc :=
  match c.service_code with
  | some svc =>
      if svc ≠ "" then
        match alookup V.service_diagnosis_map svc with
        | some req =>
            if req ≠ [] then
              if ¬ req.any (fun code =>
                  decide (code ∈ c.diagnosis_codes) ||
                    c.diagnosis_codes.any (fun d => pyStartsWith d code)) then
                { acc with
                    errors := acc.errors ++
                      ["service_code " ++ svc ++ " requires specific diagnoses: " ++
                        joinComma (sortStr (dedupFirst req))],
                    actions := acc.actions ++
                      ["Add the required diagnosis or change service code"],
                    types := insert "Medical" acc.types }
              else acc
            else acc
        | none => acc
      else acc
  | none => acc

/-- `run_all`, the whole `if claim.diagnosis_codes:` block. -/
def stageDiagBlock (V : Validator) (c : Master) (acc : Acc) : Acc :=
  if c.diagnosis_codes ≠ [] then
    stageServiceDiag V c (stageDiagApproval V c (stageMutex V c (stageInvalidDiagnoses V c acc)))
  else acc

/-- `run_all`, paid-amount threshold (correction only when none was
generated yet). -/
def stageThreshold (V : Validator) (c : Master) (paid : ℚ) (acc : Acc) : Acc :=
  let threshold := V.rules.paid_threshold_aed
  if threshold < paid then
    if ¬ isValidApproval c.approval_number then
      { acc with
          errors := acc.errors ++
            ["Paid amount " ++ floatStr paid ++ " > AED " ++ floatStr threshold ++
              " requires valid approval_number"],
          actions := acc.actions ++
            ["Obtain approval for paid amount above threshold"],
          types := insert "Technical" acc.types,
          approval_correction :=
            match acc.approval_correction with
            | some g => some g
            | none =>
                some (generateApprovalNumber
                  (c.claim_id ++ ":PAID:" ++ floatStr paid)) }
    else acc
  else acc

/-- The normalized encounter type. -/
def encET (c : Master) : String :=
  if truthy c.encounter_type then pyUpper (pyStrip (orEmpty c.encounter_type)) else ""

/-- `run_all`, encounter-type consistency. -/
def stageEncounter (V : Validator) (c : Master) (acc : Acc) : Acc :=
  match c.service_code with
  | some svc =>
      if svc ≠ "" then
        let et := encET c
        let acc :=
          if svc ∈ V.inpatient_only_services ∧ et ≠ "INPATIENT" then
            { acc with
                errors := acc.errors ++
                  ["Service " ++ svc ++ " is INPATIENT-only but claim has " ++
                    pyShowOpt c.encounter_type],
                actions := acc.actions ++
                  ["Change encounter type to INPATIENT or correct service code"],
                types := insert "Medical" acc.types }
          else acc
        if svc ∈ V.outpatient_only_services ∧ et ≠ "OUTPATIENT" then
          { acc with
              errors := acc.errors ++
                ["Service " ++ svc ++ " is OUTPATIENT-only but claim has " ++
                  pyShowOpt c.encounter_type],
              actions := acc.actions ++
                ["Change encounter type to OUTPATIENT or correct service code"],
              types := insert "Medical" acc.types }
        else acc
      else acc
  | none => acc

/-- `run_all`, facility-type eligibility.  Note: unlike
`FacilityTypeRule.apply` in `rules/engine.py`, this path has no
`GENERAL_HOSPITAL` exception. -/
def stageFacility (V : Validator) (c : Master) (acc : Acc) : Acc :=
  if truthy c.facility_id ∧ truthy c.service_code then
    let fac_type := alookup V.facility_registry (pyUpper (pyStrip (orEmpty c.facility_id)))
    let allowed := alookup V.service_allowed_facility_types (orEmpty c.service_code)
    match fac_type, allowed with
    | some t, some l =>
        if t ≠ "" ∧ l ≠ [] ∧ t ∉ l then
          { acc with
              errors := acc.errors ++
                ["Service " ++ orEmpty c.service_code ++
                  " not allowed for facility type " ++ t],
              actions := acc.actions ++
                ["Route to an allowed facility type or adjust service code"],
              types := insert "Medical" acc.types }
        else acc
    | _, _ => acc
  else acc

/-- The accumulator state at the end of `run_all`, before result assembly.
The stages appear in the source's order; `paid` is computed once, before the
diagnosis block, and used by the threshold stage. -/
def Validator.runAcc (V : Validator) (c : Master) : Acc :=
  let acc := stageUppercase V c {}
  let acc := stageUniqueId c acc
  let acc := stagePatterns V c acc
  let acc := stageServiceApproval V c acc
  let paid := c.paid_amount_aed.toFloat
  let acc := stageDiagBlock V c acc
  let acc := stageThreshold V c paid acc
  let acc := stageEncounter V c acc
  stageFacility V c acc

/-- The dict returned by `run_all` (its `corrections` entry reduced to the
only key it can hold). -/
structure RunResult where
  error_type : String
  explanations : List String
  recommended_actions : List String
  approval_correction : Option String
deriving DecidableEq

/-- An ASCII single-quote character, as a string. -/
def sq : String := String.mk [Char.ofNat 39]

/-- The explanatory note appended when an approval number was generated. -/
def genNote (g : String) : String :=
  "Generated approval_number " ++ sq ++ g ++ sq ++ " due to rule requirements"

/-- `Validator.run_all`: run every stage, then assemble the result dict
(deduplicated cleaned actions, correction note, classification, default
actions, final deduplication). -/
def Validator.run_all (V : Validator) (c : Master) : RunResult :=
  let acc := V.runAcc c
  let dedup_actions :=
    if acc.actions ≠ [] then
      dedupFirst ((acc.actions.filter (fun a => a != "" && pyStrip a != "")).map pyStrip)
    else []
  let explanations := acc.errors ++
    (match acc.approval_correction with
     | some g => [genNote g]
     | none => [])
  if explanations = [] then
    { error_type := "No error", explanations := [], recommended_actions := [],
      approval_correction := acc.approval_correction }
  else
    let etype := classify acc.types
    { error_type := etype, explanations := explanations,
      recommended_actions := dedupFirst (dedup_actions ++ defaultActions etype),
      approval_correction := acc.approval_correction }

/-! ### `TenantConfigLoader.load_rules_for_tenant` (`rcm_app/rules/loader.py`)

The loader reads the tenant services/diagnoses files and the `id_rules`
dict of the tenant config, then post-processes them.  We model the inputs
(file contents as string lists, the optional `id_rules` keys as `Option`
fields) and the post-processing exactly. -/

/-- The `id_rules` keys of a tenant config file that the loader consults
(`none` = key absent, so `setdefault` fills the default). -/
structure IdRulesIn where
  uppercase_required : Option Bool := none
  patterns : List (String × (String → Bool)) := []
  inpatient_only_services : Option (List String) := none
  outpatient_only_services : Option (List String) := none
  service_diagnosis_map : Option (List (String × List String)) := none
  mutually_exclusive_diagnoses : Option (List (List String)) := none
  facility_registry : Option (List (String × String)) := none
  service_allowed_facility_types : Option (List (String × List String)) := none

/-- `load_rules_for_tenant`, given the parsed services list, diagnoses list,
threshold and `id_rules`.  Post-processing from the source:

* `services = (services - {"SRV1003"}) | {"SRV1001", "SRV1002", "SRV2008"}`;
* `diagnoses_requiring_approval = {"E11.9", "R07.9", "Z34.0"}` (hardcoded);
* `setdefault` of encounter-type lists, `service_diagnosis_map` entries and
  `mutually_exclusive_diagnoses`;
* the bundle fields `facility_registry` and `service_allowed_facility_types`
  are captured from `id_rules.get(...)` BEFORE the `setdefault` chain runs:
  when the tenant config has no `service_allowed_facility_types` key, the
  captured value is a fresh empty dict distinct from the one the
  `setdefault` calls fill, so the returned bundle field stays empty; when
  the key exists, the same dict object is mutated and the bundle sees the
  added defaults. -/
def load_rules_for_tenant (services diagnoses : List String) (threshold : ℚ)
    (idr : IdRulesIn) : RulesBundle :=
  let services :=
    services.filter (fun s => s ≠ "SRV1003") ++ ["SRV1001", "SRV1002", "SRV2008"]
  let sdm0 := idr.service_diagnosis_map.getD []
  let sdm :=
    asetdefault (asetdefault (asetdefault (asetdefault (asetdefault sdm0
      "SRV2007" ["E11.9"]) "SRV2006" ["J45.909"]) "SRV2001" ["R07.9"])
      "SRV2008" ["Z34.0"]) "SRV2005" ["N39.0"]
  let safFill := fun (l : List (String × List String)) =>
    asetdefault (asetdefault (asetdefault (asetdefault (asetdefault l
      "SRV2008" ["MATERNITY_HOSPITAL"]) "SRV1003" ["DIALYSIS_CENTER"])
      "SRV2010" ["DIALYSIS_CENTER"]) "SRV2001" ["CARDIOLOGY_CENTER"])
      "SRV2011" ["CARDIOLOGY_CENTER"]
  { services_requiring_approval := services
    diagnoses := diagnoses
    diagnoses_requiring_approval := ["E11.9", "R07.9", "Z34.0"]
    paid_threshold_aed := threshold
    uppercase_required := idr.uppercase_required.getD true
    id_patterns := idr.patterns
    inpatient_only_services :=
      idr.inpatient_only_services.getD ["SRV1001", "SRV1002", "SRV1003"]
    outpatient_only_services :=
      idr.outpatient_only_services.getD
        ["SRV2001", "SRV2002", "SRV2003", "SRV2004", "SRV2006", "SRV2007",
         "SRV2008", "SRV2010", "SRV2011"]
    service_diagnosis_map := sdm
    mutually_exclusive_diagnoses :=
      idr.mutually_exclusive_diagnoses.getD
        [["R73.03", "E11.9"], ["E66.3", "E66.9"], ["R51", "G43.9"]]
    facility_registry := idr.facility_registry.getD []
    service_allowed_facility_types :=
      match idr.service_allowed_facility_types with
      | some l => safFill l
      | none => [] }

/-! ### Modular rules (`rcm_app/rules/engine.py`) -/

/-- A `RuleIssue` of the modular engine. -/
structure RuleIssue where
  category : String
  message : String
  action : String
deriving DecidableEq

/-- `ServiceApprovalRule.apply`: Technical issue when the service requires
approval and the stripped, uppercased approval number is a sentinel. -/
def ServiceApprovalRule.apply (c : Master) (rules : RulesBundle) : List RuleIssue :=
  match c.service_code with
  | some svc =>
      if svc ≠ "" ∧ svc ∈ rules.services_requiring_approval then
        let appr := pyUpper (pyStrip (orEmpty c.approval_number))
        if appr ∈ ["", "NA", "OBTAIN APPROVAL"] then
          [{ category := "Technical",
             message := "Service code " ++ svc ++ " requires approval",
             action := "Obtain prior approval for service code " ++ svc }]
        else []
      else []
  | none => []

/-- `PaidThresholdApprovalRule.apply`: Technical issue when the paid amount
exceeds the threshold and the approval number is a sentinel. -/
def PaidThresholdApprovalRule.apply (c : Master) (rules : RulesBundle) : List RuleIssue :=
  let paid := c.paid_amount_aed.toFloat
  let threshold := rules.paid_threshold_aed
  if threshold < paid then
    let appr := pyUpper (pyStrip (orEmpty c.approval_number))
    if appr ∈ ["", "NA", "OBTAIN APPROVAL"] then
      [{ category := "Technical",
         message := "Paid amount " ++ floatStr paid ++ " exceeds threshold " ++
           floatStr threshold,
         action := "Obtain approval for amount exceeding threshold" }]
    else []
  else []

/-- `FacilityTypeRule.apply`: Medical issue when the facility type of the
claim is known, is not `GENERAL_HOSPITAL` (the universal exception), the
allowed-types entry for the service is known and non-empty, and the facility
type is not among the allowed types. -/
def FacilityTypeRule.apply (c : Master) (rules : RulesBundle) : List RuleIssue :=
  if ¬ (truthy c.facility_id ∧ truthy c.service_code) then []
  else
    let fac_type := alookup rules.facility_registry
      (pyUpper (pyStrip (orEmpty c.facility_id)))
    let allowed := alookup rules.service_allowed_facility_types
      (orEmpty c.service_code)
    if fac_type = some "GENERAL_HOSPITAL" then []
    else
      match fac_type, allowed with
      | some t, some l =>
          if t ≠ "" ∧ l ≠ [] ∧ t ∉ l then
            [{ category := "Medical",
               message := "Service " ++ orEmpty c.service_code ++
                 " not allowed for facility type " ++ t,
               action := "Route to an allowed facility type or adjust service" }]
          else []
      | _, _ => []

/-- The hardcoded issue of `ServiceDiagnosisDependencyRule` for diagnosis
`N39.0` without service `SRV2005`. -/
def n39Issue : RuleIssue :=
  { category := "Medical",
    message := "Diagnosis N39.0 (UTI) requires SRV2005 Urine Culture",
    action := "Order SRV2005 Urine Culture or update coding" }

/-- `ServiceDiagnosisDependencyRule.apply`: the config-driven required
diagnoses check, then the hardcoded `N39.0 → SRV2005` dependency. -/
def ServiceDiagnosisDependencyRule.apply (c : Master) (rules : RulesBundle) :
    List RuleIssue :=
  let svc := orEmpty c.service_code
  let provided := c.diagnosis_codes
  let req := (alookup rules.service_diagnosis_map svc).getD []
  let mappingIssues :=
    if req ≠ [] then
      if ¬ req.any (fun code =>
          decide (code ∈ provided) || provided.any (fun d => pyStartsWith d code)) then
        [{ category := "Medical",
           message := "service_code " ++ svc ++ " requires diagnoses: " ++
             joinComma (sortStr (dedupFirst req)),
           action := "Add required diagnosis or adjust service" }]
      else []
    else []
  mappingIssues ++
    (if "N39.0" ∈ provided ∧ svc ≠ "SRV2005" then [n39Issue] else [])

/-! ### `reconcile_error_type` (`rcm_app/pipeline/engine.py`) -/

/-- The order dict `{"No error": 0, "Technical": 1, "Medical": 2, "Both": 3}`
with `order.get(x, 0)` lookup semantics. -/
def errOrder (s : String) : Nat :=
  if s = "No error" then 0
  else if s = "Technical" then 1
  else if s = "Medical" then 2
  else if s = "Both" then 3
  else 0

/-- `reconcile_error_type(static_type, llm_type)`: take the LLM candidate
(falling back to the static type when it is `None` or empty) when its order
is at least the static order, else keep the static type. -/
def reconcile_error_type (static_type : String) (llm_type : Option String) : String :=
  let candidate :=
    match llm_type with
    | none => static_type
    | some s => if s = "" then static_type else s
  if errOrder static_type ≤ errOrder candidate then candidate else static_type

/-! ### Properties of `dedupFirst` (`list(dict.fromkeys(...))`) -/

theorem mem_dedupFirstAux (x : String) :
    ∀ (l seen : List String), x ∈ dedupFirstAux seen l ↔ x ∈ l ∧ x ∉ seen := by
  intro l
  induction l with
  | nil => intro seen; simp [dedupFirstAux]
  | cons y ys ih =>
      intro seen
      by_cases hy : y ∈ seen
      · rw [dedupFirstAux, if_pos hy, ih]
        constructor
        · rintro ⟨h1, h2⟩
          exact ⟨List.mem_cons_of_mem _ h1, h2⟩
        · rintro ⟨h1, h2⟩
          rcases List.mem_cons.mp h1 with rfl | h1
          · exact absurd hy h2
          · exact ⟨h1, h2⟩
      · rw [dedupFirstAux, if_neg hy]
        constructor
        · intro hmem
          rcases List.mem_cons.mp hmem with rfl | hmem
          · exact ⟨List.mem_cons_self _ _, hy⟩
          · have h := (ih (y :: seen)).mp hmem
            exact ⟨List.mem_cons_of_mem _ h.1,
              fun hc => h.2 (List.mem_cons_of_mem _ hc)⟩
        · rintro ⟨h1, h2⟩
          rcases List.mem_cons.mp h1 with rfl | h1
          · exact List.mem_cons_self _ _
          · by_cases hxy : x = y
            · subst hxy; exact List.mem_cons_self _ _
            · refine List.mem_cons_of_mem _ ((ih (y :: seen)).mpr ⟨h1, ?_⟩)
              intro hc
              rcases List.mem_cons.mp hc with h | h
              · exact hxy h
              · exact h2 h

theorem nodup_dedupFirstAux :
    ∀ (l seen : List String), (dedupFirstAux seen l).Nodup := by
  intro l
  induction l with
  | nil => intro seen; simp [dedupFirstAux]
  | cons y ys ih =>
      intro seen
      by_cases hy : y ∈ seen
      · rw [dedupFirstAux, if_pos hy]
        exact ih seen
      · rw [dedupFirstAux, if_neg hy]
        refine List.nodup_cons.mpr ⟨fun hmem => ?_, ih _⟩
        have h := (mem_dedupFirstAux y ys (y :: seen)).mp hmem
        exact h.2 (List.mem_cons_self _ _)

theorem dedupFirstAux_congr :
    ∀ (l s₁ s₂ : List String), (∀ x, x ∈ s₁ ↔ x ∈ s₂) →
      dedupFirstAux s₁ l = dedupFirstAux s₂ l := by
  intro l
  induction l with
  | nil => intro s₁ s₂ _; rfl
  | cons y ys ih =>
      intro s₁ s₂ h
      by_cases hy : y ∈ s₁
      · rw [dedupFirstAux, if_pos hy, dedupFirstAux, if_pos ((h y).mp hy)]
        exact ih s₁ s₂ h
      · have hy₂ : y ∉ s₂ := fun hc => hy ((h y).mpr hc)
        rw [dedupFirstAux, if_neg hy, dedupFirstAux, if_neg hy₂]
        refine congrArg _ (ih _ _ fun x => ?_)
        simp only [List.mem_cons, h x]

theorem dedupFirstAux_append :
    ∀ (l₁ l₂ seen : List String),
      dedupFirstAux seen (l₁ ++ l₂) =
        dedupFirstAux seen l₁ ++ dedupFirstAux (l₁ ++ seen) l₂ := by
  intro l₁
  induction l₁ with
  | nil => intro l₂ seen; simp [dedupFirstAux]
  | cons y ys ih =>
      intro l₂ seen
      by_cases hy : y ∈ seen
      · rw [List.cons_append, dedupFirstAux, if_pos hy, ih, dedupFirstAux, if_pos hy]
        refine congrArg (fun t => dedupFirstAux seen ys ++ t)
          (dedupFirstAux_congr l₂ _ _ fun x => ?_)
        simp only [List.mem_append, List.cons_append, List.mem_cons]
        constructor
        · tauto
        · rintro (rfl | h | h)
          · exact Or.inr hy
          · exact Or.inl h
          · exact Or.inr h
      · rw [List.cons_append, dedupFirstAux, if_neg hy, ih, dedupFirstAux, if_neg hy,
          List.cons_append]
        refine congrArg (fun t => y :: (dedupFirstAux (y :: seen) ys ++ t))
          (dedupFirstAux_congr l₂ _ _ fun x => ?_)
        simp only [List.mem_append, List.mem_cons, List.cons_append]
        tauto

theorem dedupFirstAux_eq_self :
    ∀ (l seen : List String), l.Nodup → (∀ x ∈ l, x ∉ seen) →
      dedupFirstAux seen l = l := by
  intro l
  induction l with
  | nil => intro seen _ _; rfl
  | cons y ys ih =>
      intro seen hnd hdisj
      have hy : y ∉ seen := hdisj y (List.mem_cons_self _ _)
      rw [dedupFirstAux, if_neg hy]
      refine congrArg _ (ih _ (List.nodup_cons.mp hnd).2 fun x hx => ?_)
      intro hc
      rcases List.mem_cons.mp hc with rfl | hc
      · exact (List.nodup_cons.mp hnd).1 hx
      · exact hdisj x (List.mem_cons_of_mem _ hx) hc

theorem mem_dedupFirst (x : String) (l : List String) :
    x ∈ dedupFirst l ↔ x ∈ l := by
  simp [dedupFirst, mem_dedupFirstAux]

theorem nodup_dedupFirst (l : List String) : (dedupFirst l).Nodup :=
  nodup_dedupFirstAux l []

theorem dedupFirst_eq_self (l : List String) (h : l.Nodup) : dedupFirst l = l :=
  dedupFirstAux_eq_self l [] h (by simp)

/-- Deduplicating `dedupFirst A ++ D` when `D` has no duplicates and is
disjoint from `A` keeps the deduplicated `A` in place and the whole of `D`
after it. -/
theorem dedupFirst_dedup_append (A D : List String) (hD : D.Nodup)
    (hdisj : ∀ x ∈ D, x ∉ A) :
    dedupFirst (dedupFirst A ++ D) = dedupFirst A ++ D := by
  have h1 := dedupFirstAux_append (dedupFirst A) D []
  rw [List.append_nil] at h1
  have h2 : dedupFirstAux [] (dedupFirst A) = dedupFirst A :=
    dedupFirstAux_eq_self _ _ (nodup_dedupFirst A) (by simp)
  have h3 : dedupFirstAux (dedupFirst A) D = D :=
    dedupFirstAux_eq_self _ _ hD fun x hx hc => hdisj x hx ((mem_dedupFirst x A).mp hc)
  calc dedupFirst (dedupFirst A ++ D)
      = dedupFirstAux [] (dedupFirst A) ++ dedupFirstAux (dedupFirst A) D := h1
    _ = dedupFirst A ++ D := by rw [h2, h3]

/-! ### Stage characterizations

For every stage of `run_all` we compute the lists of errors and actions it
appends, the categories it inserts, and its effect on the generated approval
number, as functions of the validator state and the claim alone.  Each
`stageX_eq` lemma states that the stage is exactly "append these deltas". -/

/-- Trigger of the uppercase check on one field. -/
def upTrig (p : String × Option String) : Bool :=
  match p.2 with
  | some v => decide (v ≠ "" ∧ v ≠ pyUpper v)
  | none => false

/-- Errors appended by the uppercase stage. -/
def uppercaseErrs (V : Validator) (c : Master) : List String :=
  if V.uppercase_required then
    ((uppercaseFlds c).filter upTrig).map (fun p => p.1 ++ " must be uppercase")
  else []

/-- Errors appended by the unique-id stage. -/
def uniqueIdErrs (c : Master) : List String :=
  if truthy c.unique_id then
    (if ¬ uidFormatOk (orEmpty c.unique_id) then
      ["unique_id is invalid: must be uppercase alphanumeric with hyphen-separated format (XXXX-XXXX-XXXX)"]
     else []) ++
    (if (pyUpper (pyStrip (orEmpty c.national_id)) ≠ "" ∧
          pyUpper (pyStrip (orEmpty c.member_id)) ≠ "" ∧
          pyUpper (pyStrip (orEmpty c.facility_id)) ≠ "") ∧
        pyUpper (pyStrip (orEmpty c.unique_id)) ≠ uidExpected c then
      ["unique_id format is invalid (should be " ++ uidExpected c ++ ")."]
     else [])
  else []

/-- Trigger of the identifier-pattern check for one configured pattern. -/
def patTrig (c : Master) (p : String × (String → Bool)) : Bool :=
  match getField c p.1 with
  | some v => decide (v ≠ "") && !(p.2 v)
  | none => false

/-- Errors appended by the pattern stage. -/
def patternsErrs (V : Validator) (c : Master) : List String :=
  (V.id_patterns.filter (patTrig c)).map
    (fun p => p.1 ++ " does not match required pattern")

/-- Trigger of the service-requires-approval rule. -/
def serviceTrig (V : Validator) (c : Master) : Bool :=
  truthy c.service_code &&
    decide (orEmpty c.service_code ∈ V.rules.services_requiring_approval) &&
    !(isValidApproval c.approval_number)

/-- Error appended by the service-approval stage. -/
def serviceApprovalErrs (V : Validator) (c : Master) : List String :=
  if serviceTrig V c then
    ["Service requires valid approval_number (e.g., APPROVED, APP###)"]
  else []

/-- Action appended by the service-approval stage. -/
def serviceApprovalActs (V : Validator) (c : Master) : List String :=
  if serviceTrig V c then ["Obtain prior approval for this service code"] else []

/-- The unknown diagnosis codes of a claim. -/
def invalidCodes (V : Validator) (c : Master) : List String :=
  c.diagnosis_codes.filter (fun d => decide (d ∉ V.rules.diagnoses))

/-- Error appended by the unknown-diagnoses check. -/
def invalidDiagErrs (V : Validator) (c : Master) : List String :=
  if invalidCodes V c ≠ [] then
    ["invalid diagnosis codes: " ++ joinComma (invalidCodes V c)]
  else []

/-- The (distinct) overlap of a mutually-exclusive group with the claim. -/
def mutexOverlap (c : Master) (group : List String) : List String :=
  dedupFirst (group.filter (fun d => decide (d ∈ c.diagnosis_codes)))

/-- Errors appended by the mutually-exclusive-diagnoses check. -/
def mutexErrs (V : Validator) (c : Master) : List String :=
  (V.mutually_exclusive_diagnoses.filter
      (fun g => decide (1 < (mutexOverlap c g).length))).map
    (fun g => "mutually exclusive diagnoses present together: " ++
      joinComma (sortStr (mutexOverlap c g)))

/-- The diagnoses that trigger the diagnosis-approval rule, in claim order. -/
def diagTrigs (V : Validator) (c : Master) : List String :=
  if isValidApproval c.approval_number then []
  else c.diagnosis_codes.filter
    (fun d => decide (d ∈ V.rules.diagnoses_requiring_approval))

/-- Errors appended by the diagnosis-approval check. -/
def diagApprovalErrs (V : Validator) (c : Master) : List String :=
  (diagTrigs V c).map
    (fun dx => "Diagnosis " ++ dx ++ " requires prior approval; invalid approval_number")

/-- Actions appended by the diagnosis-approval check. -/
def diagApprovalActs (V : Validator) (c : Master) : List String :=
  (diagTrigs V c).map (fun _ => "Obtain prior approval for diagnosis-driven services")

/-- Trigger of the service–diagnosis compatibility check. -/
def serviceDiagTrig (V : Validator) (c : Master) : Bool :=
  truthy c.service_code &&
    (match alookup V.service_diagnosis_map (orEmpty c.service_code) with
     | some req =>
         decide (req ≠ []) &&
           !(req.any (fun code =>
               decide (code ∈ c.diagnosis_codes) ||
                 c.diagnosis_codes.any (fun d => pyStartsWith d code)))
     | none => false)

/-- The configured required-diagnoses entry for the claim's service. -/
def serviceDiagReq (V : Validator) (c : Master) : List String :=
  (alookup V.service_diagnosis_map (orEmpty c.service_code)).getD []

/-- Error appended by the service–diagnosis check. -/
def serviceDiagErrs (V : Validator) (c : Master) : List String :=
  if serviceDiagTrig V c then
    ["service_code " ++ orEmpty c.service_code ++ " requires specific diagnoses: " ++
      joinComma (sortStr (dedupFirst (serviceDiagReq V c)))]
  else []

/-- Action appended by the service–diagnosis check. -/
def serviceDiagActs (V : Validator) (c : Master) : List String :=
  if serviceDiagTrig V c then ["Add the required diagnosis or change service code"] else []

/-- Trigger of the paid-threshold rule. -/
def thresholdTrig (V : Validator) (c : Master) (paid : ℚ) : Bool :=
  decide (V.rules.paid_threshold_aed < paid) && !(isValidApproval c.approval_number)

/-- Error appended by the threshold stage. -/
def thresholdErrs (V : Validator) (c : Master) (paid : ℚ) : List String :=
  if thresholdTrig V c paid then
    ["Paid amount " ++ floatStr paid ++ " > AED " ++ floatStr V.rules.paid_threshold_aed ++
      " requires valid approval_number"]
  else []

/-- Action appended by the threshold stage. -/
def thresholdActs (V : Validator) (c : Master) (paid : ℚ) : List String :=
  if thresholdTrig V c paid then ["Obtain approval for paid amount above threshold"] else []

/-- Trigger of the inpatient-only check. -/
def encInTrig (V : Validator) (c : Master) : Bool :=
  truthy c.service_code &&
    decide (orEmpty c.service_code ∈ V.inpatient_only_services) &&
    decide (encET c ≠ "INPATIENT")

/-- Trigger of the outpatient-only check. -/
def encOutTrig (V : Validator) (c : Master) : Bool :=
  truthy c.service_code &&
    decide (orEmpty c.service_code ∈ V.outpatient_only_services) &&
    decide (encET c ≠ "OUTPATIENT")

/-- Errors appended by the encounter stage. -/
def encounterErrs (V : Validator) (c : Master) : List String :=
  (if encInTrig V c then
    ["Service " ++ orEmpty c.service_code ++ " is INPATIENT-only but claim has " ++
      pyShowOpt c.encounter_type]
   else []) ++
  (if encOutTrig V c then
    ["Service " ++ orEmpty c.service_code ++ " is OUTPATIENT-only but claim has " ++
      pyShowOpt c.encounter_type]
   else [])

/-- Actions appended by the encounter stage. -/
def encounterActs (V : Validator) (c : Master) : List String :=
  (if encInTrig V c then
    ["Change encounter type to INPATIENT or correct service code"] else []) ++
  (if encOutTrig V c then
    ["Change encounter type to OUTPATIENT or correct service code"] else [])

/-- Trigger of the facility-type stage. -/
def facilityTrig (V : Validator) (c : Master) : Bool :=
  truthy c.facility_id && truthy c.service_code &&
    (match alookup V.facility_registry (pyUpper (pyStrip (orEmpty c.facility_id))),
           alookup V.service_allowed_facility_types (orEmpty c.service_code) with
     | some t, some l => decide (t ≠ "" ∧ l ≠ [] ∧ t ∉ l)
     | _, _ => false)

/-- The resolved facility type (for the message text). -/
def facilityFacType (V : Validator) (c : Master) : String :=
  (alookup V.facility_registry (pyUpper (pyStrip (orEmpty c.facility_id)))).getD ""

/-- Error appended by the facility stage. -/
def facilityErrs (V : Validator) (c : Master) : List String :=
  if facilityTrig V c then
    ["Service " ++ orEmpty c.service_code ++ " not allowed for facility type " ++
      facilityFacType V c]
  else []

/-- Action appended by the facility stage. -/
def facilityActs (V : Validator) (c : Master) : List String :=
  if facilityTrig V c then ["Route to an allowed facility type or adjust service code"] else []

theorem insert_union_ite (t : String) (s : Finset String) (b : Prop) [Decidable b] :
    insert t s ∪ (if b then (∅ : Finset String) else {t}) = s ∪ {t} := by
  by_cases hb : b <;> (ext x; simp [hb]; try tauto)

/-- A left fold whose step, when triggered, appends one error message and
inserts one category. -/
theorem foldl_issue {α : Type} (C : α → Bool) (msg : α → String) (ty : String)
    (l : List α) (acc : Acc) :
    l.foldl (fun a x =>
      if C x then
        { a with errors := a.errors ++ [msg x], types := insert ty a.types }
      else a) acc
    = { acc with errors := acc.errors ++ (l.filter C).map msg,
                 types := acc.types ∪
                   (if (l.filter C).map msg = [] then ∅ else {ty}) } := by
  induction l generalizing acc with
  | nil => simp
  | cons x xs ih =>
      rw [List.foldl_cons]
      by_cases hx : C x
      · rw [if_pos hx, ih]
        refine Acc.ext ?_ ?_ ?_ ?_
        · simp [List.filter_cons, hx]
        · rfl
        · simp only [List.filter_cons, hx, if_true, List.map_cons]
          rw [if_neg (List.cons_ne_nil _ _)]
          exact insert_union_ite ty acc.types ((xs.filter C).map msg = [])
        · rfl
      · rw [if_neg hx, ih]
        simp [List.filter_cons, hx]

theorem stageUppercase_eq (V : Validator) (c : Master) (acc : Acc) :
    stageUppercase V c acc =
      { acc with
          errors := acc.errors ++ uppercaseErrs V c,
          types := acc.types ∪
            (if uppercaseErrs V c = [] then ∅ else {"Technical"}) } := by
  by_cases hreq : V.uppercase_required
  · rw [stageUppercase, if_pos hreq]
    rw [List.foldl_ext _
      (fun (a : Acc) (p : String × Option String) =>
        if upTrig p then
          { a with errors := a.errors ++ [p.1 ++ " must be uppercase"],
                   types := insert "Technical" a.types }
        else a) acc
      (by
        intro a p _
        rcases p with ⟨f, v⟩
        cases v with
        | none => simp [upTrig]
        | some v =>
            by_cases hv : v ≠ "" ∧ v ≠ pyUpper v <;> simp [upTrig, hv])]
    rw [foldl_issue, uppercaseErrs, if_pos hreq]
  · rw [stageUppercase, if_neg hreq, uppercaseErrs, if_neg hreq]
    simp

theorem stagePatterns_eq (V : Validator) (c : Master) (acc : Acc) :
    stagePatterns V c acc =
      { acc with
          errors := acc.errors ++ patternsErrs V c,
          types := acc.types ∪
            (if patternsErrs V c = [] then ∅ else {"Technical"}) } := by
  rw [stagePatterns]
  rw [List.foldl_ext _
    (fun (a : Acc) (p : String × (String → Bool)) =>
      if patTrig c p then
        { a with errors := a.errors ++ [p.1 ++ " does not match required pattern"],
                 types := insert "Technical" a.types }
      else a) acc
    (by
      intro a p _
      dsimp only
      rcases hg : getField c p.1 with _ | v
      · simp [patTrig, hg]
      · have hiff : patTrig c p = true ↔ (v ≠ "" ∧ ¬ p.2 v = true) := by
          simp [patTrig, hg]
        change (if v ≠ "" ∧ ¬ p.2 v = true then
          { a with errors := a.errors ++ [p.1 ++ " does not match required pattern"],
                   types := insert "Technical" a.types } else a) = _
        by_cases hv : v ≠ "" ∧ ¬ p.2 v = true
        · rw [if_pos hv, if_pos (hiff.mpr hv)]
        · rw [if_neg hv, if_neg (fun hc => hv (hiff.mp hc))])]
  rw [foldl_issue, patternsErrs]

theorem stageMutex_eq (V : Validator) (c : Master) (acc : Acc) :
    stageMutex V c acc =
      { acc with
          errors := acc.errors ++ mutexErrs V c,
          types := acc.types ∪
            (if mutexErrs V c = [] then ∅ else {"Medical"}) } := by
  rw [stageMutex]
  rw [List.foldl_ext _
    (fun (a : Acc) (g : List String) =>
      if decide (1 < (mutexOverlap c g).length) then
        { a with
            errors := a.errors ++ ["mutually exclusive diagnoses present together: " ++ joinComma (sortStr (mutexOverlap c g))],
            types := insert "Medical" a.types }
      else a) acc
    (by
      intro a g _
      by_cases hg : 1 < (mutexOverlap c g).length <;>
        simp [mutexOverlap, hg])]
  rw [foldl_issue, mutexErrs]

theorem union_singleton (t : String) (s : Finset String) : s ∪ {t} = insert t s := by
  ext x
  simp [Or.comm]

theorem foldl_const {α : Type} (l : List α) (acc : Acc) :
    l.foldl (fun a _ => a) acc = acc := by
  induction l generalizing acc with
  | nil => rfl
  | cons x xs ih => rw [List.foldl_cons]; exact ih acc

/-- A left fold whose step, when triggered, appends one error and one action,
inserts one category, and fills the approval correction only when it is still
unset (`dict.setdefault`). -/
theorem foldl_setdefault {α : Type} (P : α → Bool) (msg act genf : α → String)
    (ty : String) (l : List α) (acc : Acc) :
    l.foldl (fun a x =>
      if P x then
        { errors := a.errors ++ [msg x], actions := a.actions ++ [act x],
          types := insert ty a.types,
          approval_correction :=
            match a.approval_correction with
            | some g => some g
            | none => some (genf x) }
      else a) acc
    = { errors := acc.errors ++ (l.filter P).map msg,
        actions := acc.actions ++ (l.filter P).map act,
        types := acc.types ∪ (if (l.filter P).map msg = [] then ∅ else {ty}),
        approval_correction :=
          match acc.approval_correction with
          | some g => some g
          | none => ((l.filter P).head?).map genf } := by
  induction l generalizing acc with
  | nil =>
      rcases hac : acc.approval_correction with _ | g <;>
        · simp [hac]
          exact Acc.ext rfl rfl rfl hac
  | cons x xs ih =>
      rw [List.foldl_cons]
      by_cases hx : P x
      · rw [if_pos hx, ih]
        refine Acc.ext ?_ ?_ ?_ ?_
        · simp [List.filter_cons, hx]
        · simp [List.filter_cons, hx]
        · simp only [List.filter_cons, hx, if_true, List.map_cons]
          rw [if_neg (List.cons_ne_nil _ _)]
          exact insert_union_ite ty acc.types ((xs.filter P).map msg = [])
        · rcases hac : acc.approval_correction with _ | g <;>
            simp [List.filter_cons, hx, hac]
      · rw [if_neg hx, ih]
        simp [List.filter_cons, hx]

theorem stageUniqueId_eq (c : Master) (acc : Acc) :
    stageUniqueId c acc =
      { acc with
          errors := acc.errors ++ uniqueIdErrs c,
          types := acc.types ∪
            (if uniqueIdErrs c = [] then ∅ else {"Technical"}) } := by
  rw [stageUniqueId, uniqueIdErrs]
  by_cases h0 : truthy c.unique_id
  · rw [if_pos h0, if_pos h0]
    by_cases h1 : uidFormatOk (orEmpty c.unique_id) <;>
    by_cases h2 : pyUpper (pyStrip (orEmpty c.national_id)) ≠ "" ∧
        pyUpper (pyStrip (orEmpty c.member_id)) ≠ "" ∧
        pyUpper (pyStrip (orEmpty c.facility_id)) ≠ "" <;>
    by_cases h3 : pyUpper (pyStrip (orEmpty c.unique_id)) ≠ uidExpected c <;>
      simp [h1, h2, h3, union_singleton, Finset.insert_idem]
  · simp [h0]

theorem stageServiceApproval_eq (V : Validator) (c : Master) (acc : Acc) :
    stageServiceApproval V c acc =
      { errors := acc.errors ++ serviceApprovalErrs V c,
        actions := acc.actions ++ serviceApprovalActs V c,
        types := acc.types ∪
          (if serviceApprovalErrs V c = [] then ∅ else {"Technical"}),
        approval_correction :=
          if serviceTrig V c then
            some (generateApprovalNumber (c.claim_id ++ ":" ++ orEmpty c.service_code))
          else acc.approval_correction } := by
  rcases hs : c.service_code with _ | svc
  · have ht : serviceTrig V c = false := by simp [serviceTrig, truthy, hs]
    simp [stageServiceApproval, hs, ht, serviceApprovalErrs, serviceApprovalActs]
  · have htr : serviceTrig V c = true ↔
        ((svc ≠ "" ∧ svc ∈ V.rules.services_requiring_approval) ∧
          ¬ isValidApproval c.approval_number = true) := by
      simp [serviceTrig, truthy, orEmpty, hs]
    by_cases h1 : svc ≠ "" ∧ svc ∈ V.rules.services_requiring_approval
    · by_cases h2 : isValidApproval c.approval_number
      · have ht : ¬ serviceTrig V c = true := fun h => (htr.mp h).2 h2
        simp [stageServiceApproval, hs, h1, h2, ht, serviceApprovalErrs,
          serviceApprovalActs]
      · have ht : serviceTrig V c = true := htr.mpr ⟨h1, h2⟩
        simp [stageServiceApproval, hs, h1, h2, ht, serviceApprovalErrs,
          serviceApprovalActs, orEmpty, union_singleton]
    · have ht : ¬ serviceTrig V c = true := fun h => h1 (htr.mp h).1
      simp [stageServiceApproval, hs, h1, ht, serviceApprovalErrs, serviceApprovalActs]

theorem stageInvalidDiagnoses_eq (V : Validator) (c : Master) (acc : Acc) :
    stageInvalidDiagnoses V c acc =
      { acc with
          errors := acc.errors ++ invalidDiagErrs V c,
          types := acc.types ∪
            (if invalidDiagErrs V c = [] then ∅ else {"Medical"}) } := by
  by_cases h : invalidCodes V c = []
  · have he : invalidDiagErrs V c = [] := by
      rw [invalidDiagErrs, if_neg (fun hc => hc h)]
    rw [stageInvalidDiagnoses, he]
    rw [invalidCodes] at h
    rw [if_neg (fun hc => hc h)]
    exact Acc.ext (List.append_nil _).symm rfl (by rw [if_pos rfl, Finset.union_empty]) rfl
  · have he : invalidDiagErrs V c =
        ["invalid diagnosis codes: " ++ joinComma (invalidCodes V c)] := by
      rw [invalidDiagErrs, if_pos h]
    rw [stageInvalidDiagnoses, he]
    rw [invalidCodes] at h
    rw [if_pos h]
    refine Acc.ext rfl rfl ?_ rfl
    rw [if_neg (List.cons_ne_nil _ _), union_singleton]

theorem stageDiagApproval_eq (V : Validator) (c : Master) (acc : Acc) :
    stageDiagApproval V c acc =
      { errors := acc.errors ++ diagApprovalErrs V c,
        actions := acc.actions ++ diagApprovalActs V c,
        types := acc.types ∪
          (if diagApprovalErrs V c = [] then ∅ else {"Medical"}),
        approval_correction :=
          match acc.approval_correction with
          | some g => some g
          | none => ((diagTrigs V c).head?).map
              (fun dx => generateApprovalNumber (c.claim_id ++ ":" ++ dx)) } := by
  rw [stageDiagApproval]
  by_cases hv : isValidApproval c.approval_number
  · have htr : diagTrigs V c = [] := by simp [diagTrigs, hv]
    rw [List.foldl_ext _ (fun (a : Acc) (_ : String) => a) acc
      (by
        intro a dx _
        by_cases hdx : dx ∈ V.rules.diagnoses_requiring_approval <;>
          simp [hdx, hv])]
    rw [foldl_const]
    rcases hac : acc.approval_correction with _ | g <;>
      · simp [htr, diagApprovalErrs, diagApprovalActs, hac]
        exact Acc.ext rfl rfl rfl hac
  · have htr : diagTrigs V c = c.diagnosis_codes.filter
        (fun d => decide (d ∈ V.rules.diagnoses_requiring_approval)) := by
      simp [diagTrigs, hv]
    rw [List.foldl_ext _
      (fun (a : Acc) (dx : String) =>
        if decide (dx ∈ V.rules.diagnoses_requiring_approval) then
          { errors := a.errors ++
              ["Diagnosis " ++ dx ++ " requires prior approval; invalid approval_number"],
            actions := a.actions ++ ["Obtain prior approval for diagnosis-driven services"],
            types := insert "Medical" a.types,
            approval_correction :=
              match a.approval_correction with
              | some g => some g
              | none => some (generateApprovalNumber (c.claim_id ++ ":" ++ dx)) }
        else a) acc
      (by
        intro a dx _
        by_cases hdx : dx ∈ V.rules.diagnoses_requiring_approval <;>
          simp [hdx, hv])]
    rw [foldl_setdefault]
    rw [diagApprovalErrs, diagApprovalActs, htr]

theorem stageServiceDiag_eq (V : Validator) (c : Master) (acc : Acc) :
    stageServiceDiag V c acc =
      { acc with
          errors := acc.errors ++ serviceDiagErrs V c,
          actions := acc.actions ++ serviceDiagActs V c,
          types := acc.types ∪
            (if serviceDiagErrs V c = [] then ∅ else {"Medical"}) } := by
  rcases hs : c.service_code with _ | svc
  · have ht : serviceDiagTrig V c = false := by simp [serviceDiagTrig, truthy, hs]
    simp [stageServiceDiag, hs, ht, serviceDiagErrs, serviceDiagActs]
  · by_cases h1 : svc ≠ ""
    · rcases hm : alookup V.service_diagnosis_map svc with _ | req
      · have ht : serviceDiagTrig V c = false := by
          simp [serviceDiagTrig, truthy, orEmpty, hs, hm]
        simp [stageServiceDiag, hs, h1, hm, ht, serviceDiagErrs, serviceDiagActs]
      · by_cases h2 : req ≠ []
        · by_cases h3 : req.any (fun code =>
              decide (code ∈ c.diagnosis_codes) ||
                c.diagnosis_codes.any (fun d => pyStartsWith d code))
          · have ht : serviceDiagTrig V c = false := by
              simp only [serviceDiagTrig, truthy, orEmpty, hs]
              simp [hm, h3]
            simp [stageServiceDiag, hs, h1, hm, h2, h3, ht, serviceDiagErrs,
              serviceDiagActs]
          · have ht : serviceDiagTrig V c = true := by
              simp only [serviceDiagTrig, truthy, orEmpty, hs]
              simp [hm, h1, h2, h3]
            simp [stageServiceDiag, hs, h1, hm, h2, h3, ht, serviceDiagErrs,
              serviceDiagActs, serviceDiagReq, orEmpty, union_singleton]
        · have ht : serviceDiagTrig V c = false := by
            simp only [serviceDiagTrig, truthy, orEmpty, hs]
            simp [hm, h2]
          simp only [not_not] at h2
          simp [stageServiceDiag, hs, h1, hm, h2, ht, serviceDiagErrs, serviceDiagActs]
    · have ht : serviceDiagTrig V c = false := by
        simp [serviceDiagTrig, truthy, orEmpty, hs, h1]
      simp only [not_not] at h1
      simp [stageServiceDiag, hs, h1, ht, serviceDiagErrs, serviceDiagActs]

theorem stageThreshold_eq (V : Validator) (c : Master) (paid : ℚ) (acc : Acc) :
    stageThreshold V c paid acc =
      { errors := acc.errors ++ thresholdErrs V c paid,
        actions := acc.actions ++ thresholdActs V c paid,
        types := acc.types ∪
          (if thresholdErrs V c paid = [] then ∅ else {"Technical"}),
        approval_correction :=
          if thresholdTrig V c paid then
            match acc.approval_correction with
            | some g => some g
            | none => some (generateApprovalNumber
                (c.claim_id ++ ":PAID:" ++ floatStr paid))
          else acc.approval_correction } := by
  rw [stageThreshold]
  by_cases h1 : V.rules.paid_threshold_aed < paid
  · by_cases h2 : isValidApproval c.approval_number
    · have ht : thresholdTrig V c paid = false := by simp [thresholdTrig, h1, h2]
      simp [h1, h2, ht, thresholdErrs, thresholdActs]
    · have ht : thresholdTrig V c paid = true := by simp [thresholdTrig, h1, h2]
      simp [h1, h2, ht, thresholdErrs, thresholdActs, union_singleton]
  · have ht : thresholdTrig V c paid = false := by simp [thresholdTrig, h1]
    simp [h1, ht, thresholdErrs, thresholdActs]

theorem stageEncounter_eq (V : Validator) (c : Master) (acc : Acc) :
    stageEncounter V c acc =
      { acc with
          errors := acc.errors ++ encounterErrs V c,
          actions := acc.actions ++ encounterActs V c,
          types := acc.types ∪
            (if encounterErrs V c = [] then ∅ else {"Medical"}) } := by
  rcases hs : c.service_code with _ | svc
  · have h1 : encInTrig V c = false := by simp [encInTrig, truthy, hs]
    have h2 : encOutTrig V c = false := by simp [encOutTrig, truthy, hs]
    simp [stageEncounter, hs, h1, h2, encounterErrs, encounterActs]
  · by_cases h0 : svc ≠ ""
    · have e1iff : encInTrig V c = true ↔
          (svc ∈ V.inpatient_only_services ∧ encET c ≠ "INPATIENT") := by
        simp [encInTrig, truthy, orEmpty, hs, h0]
      have e2iff : encOutTrig V c = true ↔
          (svc ∈ V.outpatient_only_services ∧ encET c ≠ "OUTPATIENT") := by
        simp [encOutTrig, truthy, orEmpty, hs, h0]
      by_cases hin : svc ∈ V.inpatient_only_services ∧ encET c ≠ "INPATIENT"
      · by_cases hout : svc ∈ V.outpatient_only_services ∧ encET c ≠ "OUTPATIENT"
        · have e1 : encInTrig V c = true := e1iff.mpr hin
          have e2 : encOutTrig V c = true := e2iff.mpr hout
          simp only [stageEncounter, hs]
          rw [if_pos h0]
          rw [if_pos hin, if_pos hout]
          simp only [encounterErrs, encounterActs, e1, e2, if_true]
          refine Acc.ext ?_ ?_ ?_ rfl <;>
            simp [orEmpty, hs, union_singleton, Finset.insert_idem]
        · have e1 : encInTrig V c = true := e1iff.mpr hin
          have e2 : encOutTrig V c = false := by
            rcases he : encOutTrig V c with _ | _
            · rfl
            · exact absurd (e2iff.mp he) hout
          simp only [stageEncounter, hs]
          rw [if_pos h0]
          rw [if_pos hin, if_neg hout]
          simp only [encounterErrs, encounterActs, e1, e2, if_true, Bool.false_eq_true,
            if_false, List.append_nil]
          refine Acc.ext ?_ ?_ ?_ rfl <;>
            simp [orEmpty, hs, union_singleton]
      · by_cases hout : svc ∈ V.outpatient_only_services ∧ encET c ≠ "OUTPATIENT"
        · have e1 : encInTrig V c = false := by
            rcases he : encInTrig V c with _ | _
            · rfl
            · exact absurd (e1iff.mp he) hin
          have e2 : encOutTrig V c = true := e2iff.mpr hout
          simp only [stageEncounter, hs]
          rw [if_pos h0]
          rw [if_neg hin, if_pos hout]
          simp only [encounterErrs, encounterActs, e1, e2, if_true, Bool.false_eq_true,
            if_false, List.nil_append]
          refine Acc.ext ?_ ?_ ?_ rfl <;>
            simp [orEmpty, hs, union_singleton]
        · have e1 : encInTrig V c = false := by
            rcases he : encInTrig V c with _ | _
            · rfl
            · exact absurd (e1iff.mp he) hin
          have e2 : encOutTrig V c = false := by
            rcases he : encOutTrig V c with _ | _
            · rfl
            · exact absurd (e2iff.mp he) hout
          simp only [stageEncounter, hs]
          rw [if_pos h0]
          rw [if_neg hin, if_neg hout]
          simp [encounterErrs, encounterActs, e1, e2]
    · simp only [not_not] at h0
      have h1 : encInTrig V c = false := by simp [encInTrig, truthy, hs, h0]
      have h2 : encOutTrig V c = false := by simp [encOutTrig, truthy, hs, h0]
      simp [stageEncounter, hs, h0, h1, h2, encounterErrs, encounterActs]

theorem stageFacility_eq (V : Validator) (c : Master) (acc : Acc) :
    stageFacility V c acc =
      { acc with
          errors := acc.errors ++ facilityErrs V c,
          actions := acc.actions ++ facilityActs V c,
          types := acc.types ∪
            (if facilityErrs V c = [] then ∅ else {"Medical"}) } := by
  rw [stageFacility]
  by_cases h0 : truthy c.facility_id = true ∧ truthy c.service_code = true
  · rcases hf : alookup V.facility_registry (pyUpper (pyStrip (orEmpty c.facility_id)))
      with _ | t
    · have ht : facilityTrig V c = false := by
        simp [facilityTrig, h0.1, h0.2, hf]
      simp [h0, hf, ht, facilityErrs, facilityActs]
    · rcases ha : alookup V.service_allowed_facility_types (orEmpty c.service_code)
        with _ | l
      · have ht : facilityTrig V c = false := by
          simp [facilityTrig, h0.1, h0.2, hf, ha]
        simp [h0, hf, ha, ht, facilityErrs, facilityActs]
      · by_cases h3 : t ≠ "" ∧ l ≠ [] ∧ t ∉ l
        · have ht : facilityTrig V c = true := by
            simp [facilityTrig, h0.1, h0.2, hf, ha, h3.1, h3.2.1, h3.2.2]
          simp [h0, hf, ha, h3, ht, facilityErrs, facilityActs, facilityFacType,
            union_singleton]
        · have ht : facilityTrig V c = false := by
            simp only [facilityTrig, h0.1, h0.2, hf, ha]
            simp only [Bool.true_and]
            by_contra hc
            simp only [Bool.not_eq_false, decide_eq_true_eq] at hc
            exact h3 hc
          simp [h0, hf, ha, h3, ht, facilityErrs, facilityActs]
  · have ht : facilityTrig V c = false := by
      rcases Decidable.not_and_iff_or_not.mp h0 with h | h <;>
        simp [facilityTrig, h]
    simp [h0, ht, facilityErrs, facilityActs]

/-- Errors appended by the diagnosis block (when the claim has diagnoses). -/
def blockErrs (V : Validator) (c : Master) : List String :=
  invalidDiagErrs V c ++ mutexErrs V c ++ diagApprovalErrs V c ++ serviceDiagErrs V c

/-- Actions appended by the diagnosis block. -/
def blockActs (V : Validator) (c : Master) : List String :=
  diagApprovalActs V c ++ serviceDiagActs V c

/-- Categories inserted by the diagnosis block. -/
def blockTypes (V : Validator) (c : Master) : Finset String :=
  (if invalidDiagErrs V c = [] then ∅ else {"Medical"}) ∪
  (if mutexErrs V c = [] then ∅ else {"Medical"}) ∪
  (if diagApprovalErrs V c = [] then ∅ else {"Medical"}) ∪
  (if serviceDiagErrs V c = [] then ∅ else {"Medical"})

theorem stageDiagBlock_eq (V : Validator) (c : Master) (acc : Acc) :
    stageDiagBlock V c acc =
      { errors := acc.errors ++ (if c.diagnosis_codes ≠ [] then blockErrs V c else []),
        actions := acc.actions ++ (if c.diagnosis_codes ≠ [] then blockActs V c else []),
        types := acc.types ∪ (if c.diagnosis_codes ≠ [] then blockTypes V c else ∅),
        approval_correction :=
          if c.diagnosis_codes ≠ [] then
            match acc.approval_correction with
            | some g => some g
            | none => ((diagTrigs V c).head?).map
                (fun dx => generateApprovalNumber (c.claim_id ++ ":" ++ dx))
          else acc.approval_correction } := by
  rw [stageDiagBlock]
  by_cases h : c.diagnosis_codes ≠ []
  · rw [if_pos h, stageInvalidDiagnoses_eq, stageMutex_eq, stageDiagApproval_eq,
      stageServiceDiag_eq]
    refine Acc.ext ?_ ?_ ?_ ?_
    · simp [h, blockErrs, List.append_assoc]
    · simp [h, blockActs, List.append_assoc]
    · simp [h, blockTypes, Finset.union_assoc]
    · simp [h]
  · rw [if_neg h, if_neg h, if_neg h, if_neg h, if_neg h]
    exact Acc.ext (List.append_nil _).symm (List.append_nil _).symm
      (Finset.union_empty _).symm rfl

/-- All errors `run_all` collects, in collection order. -/
def allErrs (V : Validator) (c : Master) : List String :=
  uppercaseErrs V c ++ uniqueIdErrs c ++ patternsErrs V c ++ serviceApprovalErrs V c ++
  (if c.diagnosis_codes ≠ [] then blockErrs V c else []) ++
  thresholdErrs V c c.paid_amount_aed.toFloat ++ encounterErrs V c ++ facilityErrs V c

/-- All actions `run_all` collects, in collection order. -/
def allActs (V : Validator) (c : Master) : List String :=
  serviceApprovalActs V c ++
  (if c.diagnosis_codes ≠ [] then blockActs V c else []) ++
  thresholdActs V c c.paid_amount_aed.toFloat ++ encounterActs V c ++ facilityActs V c

/-- All categories `run_all` collects. -/
def allTypes (V : Validator) (c : Master) : Finset String :=
  (if uppercaseErrs V c = [] then ∅ else {"Technical"}) ∪
  (if uniqueIdErrs c = [] then ∅ else {"Technical"}) ∪
  (if patternsErrs V c = [] then ∅ else {"Technical"}) ∪
  (if serviceApprovalErrs V c = [] then ∅ else {"Technical"}) ∪
  (if c.diagnosis_codes ≠ [] then blockTypes V c else ∅) ∪
  (if thresholdErrs V c c.paid_amount_aed.toFloat = [] then ∅ else {"Technical"}) ∪
  (if encounterErrs V c = [] then ∅ else {"Medical"}) ∪
  (if facilityErrs V c = [] then ∅ else {"Medical"})

/-- The seed of the approval number kept by `run_all`: the first triggering
rule wins — the service-approval rule, then the first diagnosis requiring
approval, then the paid-threshold rule. -/
def firstApprovalSeedSpec (V : Validator) (c : Master) : Option String :=
  if serviceTrig V c then some (c.claim_id ++ ":" ++ orEmpty c.service_code)
  else
    match (if c.diagnosis_codes ≠ [] then diagTrigs V c else []).head? with
    | some dx => some (c.claim_id ++ ":" ++ dx)
    | none =>
        if thresholdTrig V c c.paid_amount_aed.toFloat then
          some (c.claim_id ++ ":PAID:" ++ floatStr c.paid_amount_aed.toFloat)
        else none

/-- Master characterization of `run_all`: the final accumulator state is the
concatenation of the per-stage deltas, and the kept approval correction is
the generated number for the first triggering seed. -/
theorem runAcc_eq (V : Validator) (c : Master) :
    V.runAcc c =
      { errors := allErrs V c, actions := allActs V c, types := allTypes V c,
        approval_correction :=
          (firstApprovalSeedSpec V c).map generateApprovalNumber } := by
  simp only [Validator.runAcc]
  rw [stageUppercase_eq, stageUniqueId_eq, stagePatterns_eq, stageServiceApproval_eq,
    stageDiagBlock_eq, stageThreshold_eq, stageEncounter_eq, stageFacility_eq]
  refine Acc.ext ?_ ?_ ?_ ?_
  · simp [allErrs, List.append_assoc]
  · simp [allActs, List.append_assoc]
  · simp [allTypes, Finset.union_assoc]
  · rw [firstApprovalSeedSpec]
    by_cases hsv : serviceTrig V c
    · by_cases hd : c.diagnosis_codes ≠ [] <;>
        by_cases htt : thresholdTrig V c c.paid_amount_aed.toFloat <;>
          simp [hd, htt, hsv]
    · rcases hh : (if c.diagnosis_codes ≠ [] then diagTrigs V c else []).head?
        with _ | dx
      · by_cases hd : c.diagnosis_codes ≠ []
        · rw [if_pos hd] at hh
          by_cases htt : thresholdTrig V c c.paid_amount_aed.toFloat <;>
            simp [hd, htt, hsv, hh]
        · rw [if_neg hd] at hh
          by_cases htt : thresholdTrig V c c.paid_amount_aed.toFloat <;>
            simp [hd, htt, hsv, hh]
      · by_cases hd : c.diagnosis_codes ≠ []
        · rw [if_pos hd] at hh
          by_cases htt : thresholdTrig V c c.paid_amount_aed.toFloat <;>
            simp [hd, htt, hsv, hh]
        · rw [if_neg hd] at hh
          exact absurd hh (by simp)

/-! ### Invariants of the accumulated state -/

theorem ite_singleton_subset (b : Prop) [Decidable b] (t : String)
    (s : Finset String) (ht : t ∈ s) :
    (if b then (∅ : Finset String) else {t}) ⊆ s := by
  by_cases hb : b <;> simp [hb, Finset.singleton_subset_iff, ht]

theorem ite_empty_singleton_eq_empty (b : Prop) [Decidable b] (t : String) :
    ((if b then (∅ : Finset String) else {t}) = ∅) ↔ b := by
  by_cases hb : b <;> simp [hb]

theorem ite_cons_nil_iff (b : Prop) [Decidable b] (x : String) (l : List String) :
    ((if b then (x :: l) else []) = []) ↔ ¬ b := by
  by_cases hb : b <;> simp [hb]

theorem mem_ite_list {b : Prop} [Decidable b] {a x : String}
    (h : a ∈ (if b then [x] else ([] : List String))) : a = x := by
  by_cases hb : b
  · rw [if_pos hb] at h
    simpa using h
  · rw [if_neg hb] at h
    simp at h

theorem blockTypes_subset (V : Validator) (c : Master) :
    blockTypes V c ⊆ ({"Technical", "Medical"} : Finset String) := by
  rw [blockTypes]
  refine Finset.union_subset (Finset.union_subset (Finset.union_subset ?_ ?_) ?_) ?_ <;>
    exact ite_singleton_subset _ _ _ (by simp)

/-- Only the categories `Technical` and `Medical` are ever inserted. -/
theorem allTypes_subset (V : Validator) (c : Master) :
    allTypes V c ⊆ ({"Technical", "Medical"} : Finset String) := by
  rw [allTypes]
  refine Finset.union_subset (Finset.union_subset (Finset.union_subset
    (Finset.union_subset (Finset.union_subset (Finset.union_subset
      (Finset.union_subset ?_ ?_) ?_) ?_) ?_) ?_) ?_) ?_
  · exact ite_singleton_subset _ _ _ (by simp)
  · exact ite_singleton_subset _ _ _ (by simp)
  · exact ite_singleton_subset _ _ _ (by simp)
  · exact ite_singleton_subset _ _ _ (by simp)
  · by_cases hd : c.diagnosis_codes ≠ []
    · rw [if_pos hd]
      exact blockTypes_subset V c
    · rw [if_neg hd]
      exact Finset.empty_subset _
  · exact ite_singleton_subset _ _ _ (by simp)
  · exact ite_singleton_subset _ _ _ (by simp)
  · exact ite_singleton_subset _ _ _ (by simp)

/-- An error is recorded exactly when a category is recorded. -/
theorem allErrs_nil_iff_allTypes_empty (V : Validator) (c : Master) :
    allErrs V c = [] ↔ allTypes V c = ∅ := by
  rw [allErrs, allTypes, blockErrs, blockTypes]
  by_cases hd : c.diagnosis_codes ≠ [] <;>
    · simp [hd, List.append_eq_nil, Finset.union_eq_empty,
        ite_empty_singleton_eq_empty]
      try tauto

/-- Actions are only recorded alongside errors. -/
theorem allActs_nil_of_allErrs_nil (V : Validator) (c : Master)
    (h : allErrs V c = []) : allActs V c = [] := by
  rw [allErrs] at h
  rw [allActs]
  by_cases hd : c.diagnosis_codes ≠ []
  · rw [if_pos hd] at h ⊢
    rw [blockErrs] at h
    simp only [List.append_eq_nil] at h
    obtain ⟨⟨⟨⟨⟨⟨⟨_, _⟩, _⟩, hsvc⟩, ⟨⟨⟨_, hmut⟩, hdiag⟩, hsdiag⟩⟩, hthr⟩, henc⟩, hfac⟩ := h
    rw [blockActs]
    rw [serviceApprovalErrs] at hsvc
    rw [serviceApprovalActs, (ite_cons_nil_iff _ _ _).mp hsvc |> if_neg]
    rw [diagApprovalErrs] at hdiag
    rw [diagApprovalActs, List.map_eq_nil_iff.mp hdiag]
    rw [serviceDiagErrs] at hsdiag
    rw [serviceDiagActs, (ite_cons_nil_iff _ _ _).mp hsdiag |> if_neg]
    rw [thresholdErrs] at hthr
    rw [thresholdActs, (ite_cons_nil_iff _ _ _).mp hthr |> if_neg]
    rw [encounterErrs, List.append_eq_nil] at henc
    rw [encounterActs, (ite_cons_nil_iff _ _ _).mp henc.1 |> if_neg,
      (ite_cons_nil_iff _ _ _).mp henc.2 |> if_neg]
    rw [facilityErrs] at hfac
    rw [facilityActs, (ite_cons_nil_iff _ _ _).mp hfac |> if_neg]
    rfl
  · rw [if_neg hd] at h ⊢
    simp only [List.append_eq_nil] at h
    obtain ⟨⟨⟨⟨⟨⟨⟨_, _⟩, _⟩, hsvc⟩, _⟩, hthr⟩, henc⟩, hfac⟩ := h
    rw [serviceApprovalErrs] at hsvc
    rw [serviceApprovalActs, (ite_cons_nil_iff _ _ _).mp hsvc |> if_neg]
    rw [thresholdErrs] at hthr
    rw [thresholdActs, (ite_cons_nil_iff _ _ _).mp hthr |> if_neg]
    rw [encounterErrs, List.append_eq_nil] at henc
    rw [encounterActs, (ite_cons_nil_iff _ _ _).mp henc.1 |> if_neg,
      (ite_cons_nil_iff _ _ _).mp henc.2 |> if_neg]
    rw [facilityErrs] at hfac
    rw [facilityActs, (ite_cons_nil_iff _ _ _).mp hfac |> if_neg]
    rfl

/-- A generated approval correction is always accompanied by an error. -/
theorem allErrs_ne_nil_of_seed (V : Validator) (c : Master)
    (h : firstApprovalSeedSpec V c ≠ none) : allErrs V c ≠ [] := by
  intro he
  apply h
  rw [allErrs] at he
  simp only [List.append_eq_nil] at he
  obtain ⟨⟨⟨⟨⟨⟨⟨_, _⟩, _⟩, hsvc⟩, hblk⟩, hthr⟩, _⟩, _⟩ := he
  rw [serviceApprovalErrs] at hsvc
  have hsv : ¬ serviceTrig V c = true := (ite_cons_nil_iff _ _ _).mp hsvc
  rw [thresholdErrs] at hthr
  have hth : ¬ thresholdTrig V c c.paid_amount_aed.toFloat = true :=
    (ite_cons_nil_iff _ _ _).mp hthr
  have hdg : (if c.diagnosis_codes ≠ [] then diagTrigs V c else []).head? = none := by
    by_cases hd : c.diagnosis_codes ≠ []
    · rw [if_pos hd] at hblk ⊢
      rw [blockErrs] at hblk
      simp only [List.append_eq_nil] at hblk
      rw [diagApprovalErrs] at hblk
      rw [List.map_eq_nil_iff.mp hblk.1.2]
      rfl
    · rw [if_neg hd]
      rfl
  rw [firstApprovalSeedSpec, if_neg hsv, hdg]
  exact if_neg hth

/-- The seven issue-derived action strings of `run_all`. -/
def actionStrings : List String :=
  ["Obtain prior approval for this service code",
   "Obtain prior approval for diagnosis-driven services",
   "Add the required diagnosis or change service code",
   "Obtain approval for paid amount above threshold",
   "Change encounter type to INPATIENT or correct service code",
   "Change encounter type to OUTPATIENT or correct service code",
   "Route to an allowed facility type or adjust service code"]

/-- Every collected action is one of the seven fixed strings. -/
theorem allActs_subset (V : Validator) (c : Master) :
    ∀ a ∈ allActs V c, a ∈ actionStrings := by
  intro a ha
  rw [allActs] at ha
  simp only [List.mem_append] at ha
  rcases ha with (((h | h) | h) | h) | h
  · rw [serviceApprovalActs] at h
    rw [mem_ite_list h]
    simp [actionStrings]
  · by_cases hd : c.diagnosis_codes ≠ []
    · rw [if_pos hd, blockActs] at h
      rcases List.mem_append.mp h with h | h
      · rw [diagApprovalActs] at h
        obtain ⟨_, _, rfl⟩ := List.mem_map.mp h
        simp [actionStrings]
      · rw [serviceDiagActs] at h
        rw [mem_ite_list h]
        simp [actionStrings]
    · rw [if_neg hd] at h
      simp at h
  · rw [thresholdActs] at h
    rw [mem_ite_list h]
    simp [actionStrings]
  · rw [encounterActs] at h
    rcases List.mem_append.mp h with h | h <;>
      · rw [mem_ite_list h]
        simp [actionStrings]
  · rw [facilityActs] at h
    rw [mem_ite_list h]
    simp [actionStrings]

/-! ### Facts about the assembled result -/

theorem run_all_correction (V : Validator) (c : Master) :
    (V.run_all c).approval_correction = (V.runAcc c).approval_correction := by
  rw [Validator.run_all]
  split <;> rfl

theorem run_all_explanations (V : Validator) (c : Master) :
    (V.run_all c).explanations =
      (V.runAcc c).errors ++
        (match (V.runAcc c).approval_correction with
         | some g => [genNote g]
         | none => []) := by
  rw [Validator.run_all]
  split
  · rename_i h
    exact h.symm
  · rfl

theorem run_all_error_type (V : Validator) (c : Master) :
    (V.run_all c).error_type = classify (V.runAcc c).types := by
  rw [Validator.run_all]
  split
  · rename_i h
    have hE : (V.runAcc c).errors = [] := (List.append_eq_nil.mp h).1
    have hT : (V.runAcc c).types = ∅ := by
      rw [runAcc_eq] at hE ⊢
      exact (allErrs_nil_iff_allTypes_empty V c).mp hE
    rw [hT, classify, if_pos rfl]
  · rfl

theorem types_cases (t : Finset String)
    (h : t ⊆ ({"Technical", "Medical"} : Finset String)) :
    t = ∅ ∨ t = {"Technical"} ∨ t = {"Medical"} ∨ t = {"Technical", "Medical"} := by
  by_cases hT : "Technical" ∈ t <;> by_cases hM : "Medical" ∈ t
  · refine Or.inr (Or.inr (Or.inr (Finset.Subset.antisymm h ?_)))
    intro x hx
    rcases Finset.mem_insert.mp hx with rfl | hx
    · exact hT
    · rw [Finset.mem_singleton] at hx
      subst hx
      exact hM
  · refine Or.inr (Or.inl (Finset.Subset.antisymm ?_ ?_))
    · intro x hx
      rcases Finset.mem_insert.mp (h hx) with rfl | hx2
      · exact Finset.mem_singleton_self _
      · rw [Finset.mem_singleton] at hx2
        subst hx2
        exact absurd hx hM
    · intro x hx
      rw [Finset.mem_singleton] at hx
      subst hx
      exact hT
  · refine Or.inr (Or.inr (Or.inl (Finset.Subset.antisymm ?_ ?_)))
    · intro x hx
      rcases Finset.mem_insert.mp (h hx) with rfl | hx2
      · exact absurd hx hT
      · exact hx2
    · intro x hx
      rw [Finset.mem_singleton] at hx
      subst hx
      exact hM
  · refine Or.inl (Finset.eq_empty_of_forall_not_mem ?_)
    intro x hx
    rcases Finset.mem_insert.mp (h hx) with rfl | hx2
    · exact hT hx
    · rw [Finset.mem_singleton] at hx2
      subst hx2
      exact hM hx

theorem classify_mem (t : Finset String)
    (h : t ⊆ ({"Technical", "Medical"} : Finset String)) :
    classify t ∈ ["No error", "Technical error", "Medical error", "Both"] := by
  rcases types_cases t h with rfl | rfl | rfl | rfl <;> decide

/-- Stripping and filtering the collected actions is the identity: every
collected action is a non-empty string with no surrounding whitespace. -/
theorem clean_actions_id (l : List String) (h : ∀ a ∈ l, a ∈ actionStrings) :
    (l.filter (fun a => a != "" && pyStrip a != "")).map pyStrip = l := by
  induction l with
  | nil => rfl
  | cons x xs ih =>
      have hx := h x (List.mem_cons_self _ _)
      have hkeep : (x != "" && pyStrip x != "") = true := by
        fin_cases hx <;> decide
      have htrim : pyStrip x = x := by
        fin_cases hx <;> decide
      rw [List.filter_cons, hkeep, if_pos rfl, List.map_cons, htrim,
        ih (fun a ha => h a (List.mem_cons_of_mem _ ha))]

theorem defaultActions_nodup (t : Finset String)
    (h : t ⊆ ({"Technical", "Medical"} : Finset String)) :
    (defaultActions (classify t)).Nodup := by
  rcases types_cases t h with rfl | rfl | rfl | rfl <;> decide

theorem defaultActions_disjoint (t : Finset String)
    (h : t ⊆ ({"Technical", "Medical"} : Finset String)) :
    ∀ d ∈ defaultActions (classify t), d ∉ actionStrings := by
  rcases types_cases t h with rfl | rfl | rfl | rfl <;> decide

theorem corr_none_of_errors_nil (V : Validator) (c : Master)
    (h : (V.runAcc c).errors = []) :
    (V.runAcc c).approval_correction = none := by
  rw [runAcc_eq] at h ⊢
  rcases hs : firstApprovalSeedSpec V c with _ | s
  · simp [hs]
  · exact absurd h (allErrs_ne_nil_of_seed V c (by rw [hs]; simp))

theorem runAcc_errors_nil_iff (V : Validator) (c : Master) :
    (V.runAcc c).errors = [] ↔ (V.runAcc c).types = ∅ := by
  rw [runAcc_eq]
  exact allErrs_nil_iff_allTypes_empty V c

theorem isAppCode_not_sentinel (x : String) (h : isAppCode x = true) :
    x ∉ ["NA", "NAN", "OBTAIN APPROVAL", ""] := by
  intro hx
  fin_cases hx <;> revert h <;> decide

/-! ### Concrete scenario instances -/

/-- The tenant rules bundle of the end-to-end scenario: the tenant files list
`SRV1003` among the services requiring approval and `E66.3` among the known
diagnoses; threshold 250; `id_rules` empty, so the loader defaults apply
(in particular `SRV1003` is inpatient-only). -/
def e2eBundle : RulesBundle := load_rules_for_tenant ["SRV1003"] ["E66.3"] 250 {}

/-- The validator of the end-to-end scenario. -/
def e2eValidator : Validator := Validator.init e2eBundle

/-- The end-to-end scenario claim. -/
def e2eClaim : Master :=
  { claim_id := "CLM001", encounter_type := some "INPATIENT",
    diagnosis_codes := ["E66.3"], service_code := some "SRV1003",
    paid_amount_aed := .num (mkRat 80573 100), approval_number := some "NA" }

/-- A claim whose only anomaly is a malformed `paid_amount_aed`. -/
def malformedClaim : Master := { claim_id := "C4", paid_amount_aed := .malformed }

/-- A tenant bundle whose services-requiring-approval file lists `SRV1001`. -/
def c5Bundle : RulesBundle := load_rules_for_tenant ["SRV1001"] [] 250 {}

/-- The validator of the non-sentinel-approval scenario. -/
def c5Validator : Validator := Validator.init c5Bundle

/-- A claim for `SRV1001` whose approval number is the non-sentinel string
`"XYZ123"`. -/
def c5Claim : Master :=
  { claim_id := "C5", encounter_type := some "INPATIENT",
    service_code := some "SRV1001", approval_number := some "XYZ123" }

/-! ### The claims -/

/-- C1 (counterexample): in the end-to-end scenario — `SRV1003`, INPATIENT,
paid 805.73 over threshold 250, approval `"NA"`, diagnoses `["E66.3"]`,
adjudicated under the tenant bundle in which `SRV1003` is inpatient-only —
the explanations do NOT contain the service-approval message, contrary to the
claim: `load_rules_for_tenant` removes `SRV1003` from the
services-requiring-approval set even though the tenant file lists it, so the
service-approval rule cannot fire for this claim. -/
theorem e2e_no_service_approval_message :
    "SRV1003" ∈ e2eBundle.inpatient_only_services ∧
    e2eBundle.paid_threshold_aed = 250 ∧
    "Service requires valid approval_number (e.g., APPROVED, APP###)" ∉
      (e2eValidator.run_all e2eClaim).explanations :=
  of_decide_eq_true (by with_unfolding_all rfl)

/-- C1 (amended): in the end-to-end scenario the result has
`error_type = "Technical error"`, the explanations contain the
paid-amount-approval message but NOT the service-approval message (the loader
strips `SRV1003` from the approval-required set), and no Medical-category
issue is produced (the category set is exactly `{"Technical"}`). -/
theorem e2e_scenario_adjudication :
    (e2eValidator.run_all e2eClaim).error_type = "Technical error" ∧
    "Paid amount 805.73 > AED 250.0 requires valid approval_number" ∈
      (e2eValidator.run_all e2eClaim).explanations ∧
    "Service requires valid approval_number (e.g., APPROVED, APP###)" ∉
      (e2eValidator.run_all e2eClaim).explanations ∧
    "Medical" ∉ (e2eValidator.runAcc e2eClaim).types ∧
    (e2eValidator.runAcc e2eClaim).types = {"Technical"} :=
  of_decide_eq_true (by with_unfolding_all rfl)

/-- On the canonical four names — the keys of its `order` dict —
`reconcile_error_type` never downgrades the static error type in the order
`No error < Technical < Medical < Both`, and stays within the four values
when the inputs do.  The pipeline, however, passes the stored values
`"Technical error"` / `"Medical error"`, which are outside this domain and
rank `0`: see `reconcile_downgrades_production_error_type`. -/
theorem reconcile_error_type_monotone (static_type : String)
    (llm_type : Option String)
    (hs : static_type ∈ ["No error", "Technical", "Medical", "Both"])
    (hl : ∀ s, llm_type = some s →
      s ∈ ["No error", "Technical", "Medical", "Both"] ∨ s = "") :
    errOrder static_type ≤ errOrder (reconcile_error_type static_type llm_type) ∧
    reconcile_error_type static_type llm_type ∈
      ["No error", "Technical", "Medical", "Both"] := by
  rcases llm_type with _ | s
  · constructor
    · simp [reconcile_error_type]
    · simpa [reconcile_error_type] using hs
  · by_cases hse : s = ""
    · subst hse
      constructor
      · simp [reconcile_error_type]
      · simpa [reconcile_error_type] using hs
    · have hc : reconcile_error_type static_type (some s) =
          if errOrder static_type ≤ errOrder s then s else static_type := by
        rw [reconcile_error_type]
        simp [hse]
      rw [hc]
      by_cases hord : errOrder static_type ≤ errOrder s
      · rw [if_pos hord]
        refine ⟨hord, ?_⟩
        rcases hl s rfl with h | h
        · exact h
        · exact absurd h hse
      · rw [if_neg hord]
        exact ⟨le_refl _, hs⟩

/-- Instance of the canonical-domain monotonicity at `static = "Technical"`,
`llm = some "Both"`. -/
theorem reconcile_error_type_monotone_witness :
    errOrder "Technical" ≤ errOrder (reconcile_error_type "Technical" (some "Both")) ∧
    reconcile_error_type "Technical" (some "Both") ∈
      ["No error", "Technical", "Medical", "Both"] :=
  reconcile_error_type_monotone "Technical" (some "Both") (by decide)
    (by
      intro s hseq
      injection hseq with h
      subst h
      left
      decide)

/-- C4 (counterexample): a claim whose only anomaly is a malformed
`paid_amount_aed` adjudicates to `"No error"` with empty explanations: no
Technical-category issue describing the malformed field is recorded, contrary
to the claim. -/
theorem malformed_paid_no_issue_recorded :
    malformedClaim.paid_amount_aed = PaidVal.malformed ∧
    e2eValidator.run_all malformedClaim =
      { error_type := "No error", explanations := [], recommended_actions := [],
        approval_correction := none } :=
  of_decide_eq_true (by with_unfolding_all rfl)

/-- C4 (amended): adjudication of a claim with malformed `paid_amount_aed`
does not abort: the `try/except` substitutes `0.0` and the result is exactly
the result of the same claim with `paid_amount_aed = 0` — in particular no
additional issue describing the malformed field is recorded. -/
theorem malformed_paid_treated_as_zero (V : Validator) (c : Master) :
    PaidVal.malformed.toFloat = 0 ∧
    V.run_all { c with paid_amount_aed := .malformed } =
      V.run_all { c with paid_amount_aed := .num 0 } :=
  ⟨rfl, rfl⟩

/-- In the modular `ServiceDiagnosisDependencyRule.apply` of
`rules/engine.py` — which no code path of the application invokes — a claim
carrying diagnosis `N39.0` with a service code other than `SRV2005` always
receives the hardcoded Medical issue, independently of the configured
service–diagnosis mapping table.  The production `Validator.run_all` has no
such hardcoded dependency: see `service_diagnosis_dependency_production`. -/
theorem n39_dependency_always_flagged (c : Master) (rules : RulesBundle)
    (h1 : "N39.0" ∈ c.diagnosis_codes) (h2 : orEmpty c.service_code ≠ "SRV2005") :
    n39Issue ∈ ServiceDiagnosisDependencyRule.apply c rules ∧
    n39Issue.category = "Medical" := by
  refine ⟨?_, rfl⟩
  simp only [ServiceDiagnosisDependencyRule.apply]
  refine List.mem_append.mpr (Or.inr ?_)
  rw [if_pos ⟨h1, h2⟩]
  exact List.mem_cons_self _ _

/-- Instance of the modular rule's hardcoded dependency: diagnosis `N39.0`
with service `SRV2001` under an empty bundle. -/
theorem n39_dependency_always_flagged_witness :
    n39Issue ∈ ServiceDiagnosisDependencyRule.apply
      { claim_id := "W6", diagnosis_codes := ["N39.0"],
        service_code := some "SRV2001" } {} ∧
    n39Issue.category = "Medical" :=
  n39_dependency_always_flagged _ _ (by decide) (by decide)

/-- C7: every generated approval number is `"APP"` followed by an integer in
`100..999`; and for every adjudication the kept correction is exactly the
generated number for the seed of the FIRST triggering rule (service approval,
then first diagnosis requiring approval, then paid threshold) — later
triggering rules do not overwrite it.  `generateApprovalNumber` is a pure
function of the seed, so the same claim and rules always yield the same
correction. -/
theorem approval_correction_generation :
    (∀ seed : String, ∃ n : ℕ,
      generateApprovalNumber seed = "APP" ++ toString n ∧ 100 ≤ n ∧ n ≤ 999) ∧
    (∀ (V : Validator) (c : Master),
      (V.run_all c).approval_correction =
        (firstApprovalSeedSpec V c).map generateApprovalNumber) := by
  constructor
  · intro seed
    refine ⟨MD5.md5hex6 seed % 900 + 100, rfl, ?_, ?_⟩
    · omega
    · have h := Nat.mod_lt (MD5.md5hex6 seed) (y := 900) (by decide)
      omega
  · intro V c
    rw [run_all_correction, runAcc_eq]

/-- Characterization of the modular `FacilityTypeRule.apply` of
`rules/engine.py` — which no code path of the application invokes.  There, a
facility registered as `GENERAL_HOSPITAL` never yields an issue, whatever
the allowed-types table; and an issue arises exactly when facility id and
service code are present, both the facility type and the allowed set resolve
to truthy values, the facility type is not `GENERAL_HOSPITAL`, and it is not
among the allowed types.  The production `Validator.run_all` lacks the
`GENERAL_HOSPITAL` exception: see
`facility_check_production_characterization`. -/
theorem facility_type_rule_characterization (c : Master) (rules : RulesBundle) :
    (alookup rules.facility_registry (pyUpper (pyStrip (orEmpty c.facility_id))) =
        some "GENERAL_HOSPITAL" → FacilityTypeRule.apply c rules = []) ∧
    (FacilityTypeRule.apply c rules ≠ [] ↔
      truthy c.facility_id = true ∧ truthy c.service_code = true ∧
      ∃ t l,
        alookup rules.facility_registry (pyUpper (pyStrip (orEmpty c.facility_id))) =
          some t ∧
        alookup rules.service_allowed_facility_types (orEmpty c.service_code) =
          some l ∧
        t ≠ "GENERAL_HOSPITAL" ∧ t ≠ "" ∧ l ≠ [] ∧ t ∉ l) := by
  simp only [FacilityTypeRule.apply]
  by_cases h0 : truthy c.facility_id = true ∧ truthy c.service_code = true
  · rw [if_neg (not_not_intro h0)]
    by_cases hg : alookup rules.facility_registry
        (pyUpper (pyStrip (orEmpty c.facility_id))) = some "GENERAL_HOSPITAL"
    · rw [if_pos hg]
      refine ⟨fun _ => rfl, iff_of_false (by simp) ?_⟩
      rintro ⟨_, _, t, l, ht, _, htg, _⟩
      rw [hg] at ht
      injection ht with hx
      exact htg hx.symm
    · rw [if_neg hg]
      rcases hf : alookup rules.facility_registry
          (pyUpper (pyStrip (orEmpty c.facility_id))) with _ | t
      · dsimp only
        refine ⟨fun hc => absurd hc (by simp), iff_of_false (by simp) ?_⟩
        rintro ⟨_, _, t, l, ht, _⟩
        exact Option.noConfusion ht
      · rcases ha : alookup rules.service_allowed_facility_types
            (orEmpty c.service_code) with _ | l
        · dsimp only
          refine ⟨fun _ => rfl, iff_of_false (by simp) ?_⟩
          rintro ⟨_, _, t', l', _, hl', _⟩
          exact Option.noConfusion hl'
        · dsimp only
          by_cases h3 : t ≠ "" ∧ l ≠ [] ∧ t ∉ l
          · rw [if_pos h3]
            refine ⟨fun hc => absurd (hf.trans hc) hg, iff_of_true (by simp) ?_⟩
            exact ⟨h0.1, h0.2, t, l, rfl, rfl,
              fun hteq => hg (by rw [hf, hteq]), h3.1, h3.2.1, h3.2.2⟩
          · rw [if_neg h3]
            refine ⟨fun _ => rfl, iff_of_false (by simp) ?_⟩
            rintro ⟨_, _, t', l', ht', hl', _, hne, hnl, hnm⟩
            injection ht' with ht2
            injection hl' with hl2
            subst ht2
            subst hl2
            exact h3 ⟨hne, hnl, hnm⟩
  · rw [if_pos (fun hc => h0 ⟨hc.1, hc.2⟩)]
    refine ⟨fun _ => rfl, iff_of_false (by simp) ?_⟩
    rintro ⟨hA, hB, _⟩
    exact h0 ⟨hA, hB⟩

/-- Instance of the modular rule's exception: a claim at a `GENERAL_HOSPITAL`
facility for a service whose allowed-types table names only
`DIALYSIS_CENTER` raises no issue from the modular rule. -/
theorem facility_type_rule_characterization_witness :
    FacilityTypeRule.apply
      { claim_id := "W2", facility_id := some "FGH", service_code := some "SRV1003" }
      { facility_registry := [("FGH", "GENERAL_HOSPITAL")],
        service_allowed_facility_types := [("SRV1003", ["DIALYSIS_CENTER"])] } = [] :=
  (facility_type_rule_characterization _ _).1
    (of_decide_eq_true (by with_unfolding_all rfl))

/-- C5 (counterexample): the non-sentinel approval string `"XYZ123"` is
treated as absent by the validator — the claim for an approval-requiring
service still receives the service-approval issue, contrary to the claim
that any non-sentinel string counts as present. -/
theorem non_sentinel_approval_still_flagged :
    pyUpper (pyStrip "XYZ123") ∉ ["", "NA", "OBTAIN APPROVAL"] ∧
    isValidApproval (some "XYZ123") = false ∧
    "SRV1001" ∈ c5Bundle.services_requiring_approval ∧
    "Service requires valid approval_number (e.g., APPROVED, APP###)" ∈
      (c5Validator.run_all c5Claim).explanations :=
  of_decide_eq_true (by with_unfolding_all rfl)

/-- C5 (amended): the modular rules `ServiceApprovalRule` and
`PaidThresholdApprovalRule` treat the approval as absent exactly when the
stripped, uppercased value is `""`, `"NA"` or `"OBTAIN APPROVAL"`; the
`Validator` used by the pipeline instead treats an approval as PRESENT only
when the stripped, uppercased value is `"APPROVED"` or `APP` followed by at
least three digits (with `"NAN"` a further sentinel) — every other string is
treated as absent there. -/
theorem approval_absence_characterization (c : Master) (rules : RulesBundle)
    (a : Option String) :
    (ServiceApprovalRule.apply c rules ≠ [] ↔
      truthy c.service_code = true ∧
      orEmpty c.service_code ∈ rules.services_requiring_approval ∧
      pyUpper (pyStrip (orEmpty c.approval_number)) ∈ ["", "NA", "OBTAIN APPROVAL"]) ∧
    (PaidThresholdApprovalRule.apply c rules ≠ [] ↔
      rules.paid_threshold_aed < c.paid_amount_aed.toFloat ∧
      pyUpper (pyStrip (orEmpty c.approval_number)) ∈ ["", "NA", "OBTAIN APPROVAL"]) ∧
    (isValidApproval a = true ↔
      ∃ s, a = some s ∧ s ≠ "" ∧
        (pyUpper (pyStrip s) = "APPROVED" ∨ isAppCode (pyUpper (pyStrip s)) = true)) := by
  refine ⟨?_, ?_, ?_⟩
  · simp only [ServiceApprovalRule.apply]
    rcases hs : c.service_code with _ | svc
    · simp [truthy]
    · dsimp only
      by_cases h1 : svc ≠ "" ∧ svc ∈ rules.services_requiring_approval
      · rw [if_pos h1]
        by_cases h2 : pyUpper (pyStrip (orEmpty c.approval_number)) ∈
            ["", "NA", "OBTAIN APPROVAL"]
        · rw [if_pos h2]
          exact iff_of_true (by simp)
            ⟨by simp [truthy, h1.1], by simpa [orEmpty] using h1.2, h2⟩
        · rw [if_neg h2]
          exact iff_of_false (by simp) (fun hc => h2 hc.2.2)
      · rw [if_neg h1]
        refine iff_of_false (by simp) ?_
        rintro ⟨ht, hm, _⟩
        exact h1 ⟨by simpa [truthy] using ht, by simpa [orEmpty] using hm⟩
  · simp only [PaidThresholdApprovalRule.apply]
    by_cases h1 : rules.paid_threshold_aed < c.paid_amount_aed.toFloat
    · rw [if_pos h1]
      by_cases h2 : pyUpper (pyStrip (orEmpty c.approval_number)) ∈
          ["", "NA", "OBTAIN APPROVAL"]
      · rw [if_pos h2]
        exact iff_of_true (by simp) ⟨h1, h2⟩
      · rw [if_neg h2]
        exact iff_of_false (by simp) (fun hc => h2 hc.2)
    · rw [if_neg h1]
      exact iff_of_false (by simp) (fun hc => h1 hc.1)
  · rw [isValidApproval]
    rcases a with _ | s
    · simp [truthy]
    · by_cases hse : s = ""
      · subst hse
        simp [truthy]
      · rw [if_neg (by simp [truthy, hse])]
        simp only [orEmpty, Option.getD_some]
        by_cases hsent : pyUpper (pyStrip s) ∈ ["NA", "NAN", "OBTAIN APPROVAL", ""]
        · rw [if_pos hsent]
          refine iff_of_false (by simp) ?_
          rintro ⟨s', hseq, hne, happ | happ⟩
          · injection hseq with hx
            subst hx
            rw [happ] at hsent
            exact absurd hsent (by decide)
          · injection hseq with hx
            subst hx
            exact absurd hsent (isAppCode_not_sentinel _ happ)
        · rw [if_neg hsent]
          by_cases happ : pyUpper (pyStrip s) = "APPROVED"
          · rw [if_pos happ]
            exact iff_of_true rfl ⟨s, rfl, hse, Or.inl happ⟩
          · rw [if_neg happ]
            constructor
            · intro hcode
              exact ⟨s, rfl, hse, Or.inr hcode⟩
            · rintro ⟨s', hseq, hne, h | h⟩
              · injection hseq with hx
                subst hx
                exact absurd h happ
              · injection hseq with hx
                subst hx
                exact h

/-- C8: the error type of every adjudication is one of the four values, is a
function of the set of collected categories alone, is `"No error"` exactly
when no error was recorded (equivalently, when the category set is empty),
`"Technical error"` exactly when only Technical issues were recorded,
`"Medical error"` exactly when only Medical issues were recorded, and
`"Both"` exactly when both categories are present. -/
theorem error_type_classification (V : Validator) (c : Master) :
    (V.run_all c).error_type ∈ ["No error", "Technical error", "Medical error", "Both"] ∧
    (V.run_all c).error_type = classify (V.runAcc c).types ∧
    ((V.run_all c).error_type = "No error" ↔ (V.runAcc c).errors = []) ∧
    ((V.run_all c).error_type = "No error" ↔ (V.runAcc c).types = ∅) ∧
    ((V.run_all c).error_type = "Technical error" ↔
      (V.runAcc c).types = {"Technical"}) ∧
    ((V.run_all c).error_type = "Medical error" ↔
      (V.runAcc c).types = {"Medical"}) ∧
    ((V.run_all c).error_type = "Both" ↔
      "Technical" ∈ (V.runAcc c).types ∧ "Medical" ∈ (V.runAcc c).types) := by
  have hsub : (V.runAcc c).types ⊆ ({"Technical", "Medical"} : Finset String) := by
    rw [runAcc_eq]
    exact allTypes_subset V c
  have hiff := runAcc_errors_nil_iff V c
  have het := run_all_error_type V c
  rw [het]
  refine ⟨classify_mem _ hsub, rfl, ?_, ?_, ?_, ?_, ?_⟩
  · rw [hiff]
    rcases types_cases _ hsub with h0 | h0 | h0 | h0 <;> rw [h0] <;> decide
  · rcases types_cases _ hsub with h0 | h0 | h0 | h0 <;> rw [h0] <;> decide
  · rcases types_cases _ hsub with h0 | h0 | h0 | h0 <;> rw [h0] <;> decide
  · rcases types_cases _ hsub with h0 | h0 | h0 | h0 <;> rw [h0] <;> decide
  · rcases types_cases _ hsub with h0 | h0 | h0 | h0 <;> rw [h0] <;> decide

/-- C9: the recommended-actions list of every adjudication has no duplicates;
it is empty when no error was recorded, and otherwise it is exactly the
issue-derived actions, deduplicated preserving first occurrence in
rule-execution order, followed by the category-specific default actions; the
`"Both"` defaults are the Technical defaults followed by the Medical
defaults. -/
theorem recommended_actions_shape (V : Validator) (c : Master) :
    (V.run_all c).recommended_actions.Nodup ∧
    ((V.runAcc c).errors = [] → (V.run_all c).recommended_actions = []) ∧
    ((V.runAcc c).errors ≠ [] →
      (V.run_all c).recommended_actions =
        dedupFirst (V.runAcc c).actions ++
          defaultActions (V.run_all c).error_type) ∧
    defaultActions "Both" =
      defaultActions "Technical error" ++ defaultActions "Medical error" := by
  have hsub : ∀ a ∈ (V.runAcc c).actions, a ∈ actionStrings := by
    rw [runAcc_eq]
    exact allActs_subset V c
  have htysub : (V.runAcc c).types ⊆ ({"Technical", "Medical"} : Finset String) := by
    rw [runAcc_eq]
    exact allTypes_subset V c
  have hdnodup := defaultActions_nodup _ htysub
  have hddisj := defaultActions_disjoint _ htysub
  rw [Validator.run_all]
  split
  · rename_i h
    have hE : (V.runAcc c).errors = [] := (List.append_eq_nil.mp h).1
    exact ⟨List.nodup_nil, fun _ => rfl, fun hne => absurd hE hne, by decide⟩
  · rename_i h
    have hE : (V.runAcc c).errors ≠ [] := by
      intro h0
      apply h
      rw [h0, corr_none_of_errors_nil V c h0]
      rfl
    have hda : (if (V.runAcc c).actions ≠ [] then
        dedupFirst (((V.runAcc c).actions.filter
          (fun a => a != "" && pyStrip a != "")).map pyStrip)
        else []) = dedupFirst (V.runAcc c).actions := by
      by_cases hA : (V.runAcc c).actions ≠ []
      · rw [if_pos hA, clean_actions_id _ hsub]
      · rw [if_neg hA, not_not.mp hA]
        rfl
    have hrec : dedupFirst ((if (V.runAcc c).actions ≠ [] then
        dedupFirst (((V.runAcc c).actions.filter
          (fun a => a != "" && pyStrip a != "")).map pyStrip)
        else []) ++ defaultActions (classify (V.runAcc c).types)) =
        dedupFirst (V.runAcc c).actions ++
          defaultActions (classify (V.runAcc c).types) := by
      rw [hda]
      exact dedupFirst_dedup_append _ _ hdnodup
        (fun x hx hxa => hddisj x hx (hsub x hxa))
    exact ⟨nodup_dedupFirst _, fun h0 => absurd h0 hE, fun _ => hrec, by decide⟩

/-- Witness for C9: the adjudication of the non-sentinel-approval scenario
has the stated recommended-actions decomposition. -/
theorem recommended_actions_shape_witness :
    (c5Validator.run_all c5Claim).recommended_actions =
      dedupFirst (c5Validator.runAcc c5Claim).actions ++
        defaultActions (c5Validator.run_all c5Claim).error_type :=
  (recommended_actions_shape c5Validator c5Claim).2.2.1
    (of_decide_eq_true (by with_unfolding_all rfl))

/-- C10 (implicit behaviour): every claim with a diagnosis code outside the
known-diagnoses set of the bundle receives a Medical-category issue listing
the unknown codes, and the final error type is Medical-sided. -/
theorem unknown_diagnoses_medical_issue (V : Validator) (c : Master)
    (h : invalidCodes V c ≠ []) :
    c.diagnosis_codes ≠ [] ∧
    ("invalid diagnosis codes: " ++ joinComma (invalidCodes V c)) ∈
      (V.run_all c).explanations ∧
    "Medical" ∈ (V.runAcc c).types ∧
    (V.run_all c).error_type ∈ ["Medical error", "Both"] := by
  have hd : c.diagnosis_codes ≠ [] := by
    intro h0
    apply h
    rw [invalidCodes, h0]
    rfl
  have hinv : invalidDiagErrs V c =
      ["invalid diagnosis codes: " ++ joinComma (invalidCodes V c)] := by
    rw [invalidDiagErrs, if_pos h]
  have hmsg : ("invalid diagnosis codes: " ++ joinComma (invalidCodes V c)) ∈
      allErrs V c := by
    rw [allErrs]
    have hmem : ("invalid diagnosis codes: " ++ joinComma (invalidCodes V c)) ∈
        (if c.diagnosis_codes ≠ [] then blockErrs V c else []) := by
      rw [if_pos hd, blockErrs]
      refine List.mem_append.mpr (Or.inl (List.mem_append.mpr
        (Or.inl (List.mem_append.mpr (Or.inl ?_)))))
      rw [hinv]
      exact List.mem_cons_self _ _
    simp only [List.mem_append]
    tauto
  have hMt : "Medical" ∈ (V.runAcc c).types := by
    rw [runAcc_eq]
    show "Medical" ∈ allTypes V c
    rw [allTypes]
    simp only [Finset.mem_union]
    refine Or.inl (Or.inl (Or.inl (Or.inr ?_)))
    rw [if_pos hd, blockTypes]
    simp only [Finset.mem_union]
    refine Or.inl (Or.inl (Or.inl ?_))
    rw [if_neg (by rw [hinv]; simp)]
    exact Finset.mem_singleton_self _
  refine ⟨hd, ?_, hMt, ?_⟩
  · rw [run_all_explanations]
    refine List.mem_append.mpr (Or.inl ?_)
    rw [runAcc_eq]
    exact hmsg
  · rw [run_all_error_type]
    have hsub : (V.runAcc c).types ⊆ ({"Technical", "Medical"} : Finset String) := by
      rw [runAcc_eq]
      exact allTypes_subset V c
    rcases types_cases _ hsub with h0 | h0 | h0 | h0 <;> rw [h0] <;> rw [h0] at hMt
    · exact absurd hMt (by decide)
    · exact absurd hMt (by decide)
    · decide
    · decide

/-- Witness for C10: a claim with the unknown diagnosis code `"ZZZ"` under
the end-to-end bundle receives the invalid-diagnosis explanation. -/
theorem unknown_diagnoses_medical_issue_witness :
    ("invalid diagnosis codes: " ++
        joinComma (invalidCodes e2eValidator
          { claim_id := "W10", diagnosis_codes := ["ZZZ"] })) ∈
      (e2eValidator.run_all
        { claim_id := "W10", diagnosis_codes := ["ZZZ"] }).explanations :=
  (unknown_diagnoses_medical_issue e2eValidator
    { claim_id := "W10", diagnosis_codes := ["ZZZ"] }
    (of_decide_eq_true (by with_unfolding_all rfl))).2.1

/-- A tenant bundle whose config registers facility `FGH1` as
`GENERAL_HOSPITAL` and carries a (present, empty) allowed-types table: by
the loader's aliasing, the `setdefault` chain then fills the bundle's table
with the default entries, among them `SRV1003 → ["DIALYSIS_CENTER"]`. -/
def c2Bundle : RulesBundle :=
  load_rules_for_tenant [] [] 250
    { facility_registry := some [("FGH1", "GENERAL_HOSPITAL")],
      service_allowed_facility_types := some [] }

/-- The validator of the general-hospital scenario. -/
def c2Validator : Validator := Validator.init c2Bundle

/-- A claim for `SRV1003` at the `GENERAL_HOSPITAL` facility `FGH1`. -/
def c2Claim : Master :=
  { claim_id := "C2", encounter_type := some "INPATIENT",
    facility_id := some "FGH1", service_code := some "SRV1003",
    approval_number := some "APPROVED" }

/-- C2 (counterexample): the production `Validator.run_all` has no
`GENERAL_HOSPITAL` exception.  A claim at a facility whose registered type is
`GENERAL_HOSPITAL`, for a service whose allowed-types entry is
`["DIALYSIS_CENTER"]`, receives the facility-type Medical issue — contrary to
the claim that such a facility is never flagged. -/
theorem general_hospital_flagged_in_production :
    alookup c2Validator.facility_registry
      (pyUpper (pyStrip (orEmpty c2Claim.facility_id))) = some "GENERAL_HOSPITAL" ∧
    alookup c2Validator.service_allowed_facility_types
      (orEmpty c2Claim.service_code) = some ["DIALYSIS_CENTER"] ∧
    "Service SRV1003 not allowed for facility type GENERAL_HOSPITAL" ∈
      (c2Validator.run_all c2Claim).explanations ∧
    (c2Validator.run_all c2Claim).error_type = "Medical error" :=
  of_decide_eq_true (by with_unfolding_all rfl)

/-- C2 (amended): the facility-type check of the production
`Validator.run_all` has NO `GENERAL_HOSPITAL` exception.  It raises its
Medical issue exactly when facility id and service code are truthy, the
facility id resolves in the registry to a non-empty facility type, the
allowed-types entry for the service exists and is non-empty, and the
facility type is not among the allowed types — a `GENERAL_HOSPITAL` facility
is flagged like any other when it is not listed.  When the check fires, its
message reaches the final explanations and the Medical category is recorded.
(The universal `GENERAL_HOSPITAL` exception exists only in the modular
`FacilityTypeRule`, which no code path invokes.) -/
theorem facility_check_production_characterization (V : Validator) (c : Master) :
    (facilityErrs V c ≠ [] ↔
      truthy c.facility_id = true ∧ truthy c.service_code = true ∧
      ∃ t l,
        alookup V.facility_registry (pyUpper (pyStrip (orEmpty c.facility_id))) =
          some t ∧
        alookup V.service_allowed_facility_types (orEmpty c.service_code) =
          some l ∧
        t ≠ "" ∧ l ≠ [] ∧ t ∉ l) ∧
    (facilityErrs V c ≠ [] →
      ("Service " ++ orEmpty c.service_code ++ " not allowed for facility type " ++
        facilityFacType V c) ∈ (V.run_all c).explanations ∧
      "Medical" ∈ (V.runAcc c).types) := by
  have htrig : facilityErrs V c ≠ [] ↔ facilityTrig V c = true := by
    rw [facilityErrs]
    by_cases h : facilityTrig V c = true
    · rw [if_pos h]
      exact iff_of_true (by simp) h
    · rw [if_neg h]
      exact iff_of_false (by simp) h
  constructor
  · rw [htrig, facilityTrig]
    simp only [Bool.and_eq_true]
    rcases hf : alookup V.facility_registry
        (pyUpper (pyStrip (orEmpty c.facility_id))) with _ | t
    · dsimp only
      refine iff_of_false ?_ ?_
      · rintro ⟨_, hm⟩
        exact Bool.noConfusion hm
      · rintro ⟨_, _, t, l, ht, _⟩
        exact Option.noConfusion ht
    · rcases ha : alookup V.service_allowed_facility_types
          (orEmpty c.service_code) with _ | l
      · dsimp only
        refine iff_of_false ?_ ?_
        · rintro ⟨_, hm⟩
          exact Bool.noConfusion hm
        · rintro ⟨_, _, t', l', _, hl', _⟩
          exact Option.noConfusion hl'
      · dsimp only
        constructor
        · rintro ⟨⟨h1, h2⟩, hm⟩
          have hP := of_decide_eq_true hm
          exact ⟨h1, h2, t, l, rfl, rfl, hP.1, hP.2.1, hP.2.2⟩
        · rintro ⟨h1, h2, t', l', ht', hl', hne, hnl, hnm⟩
          injection ht' with he1
          injection hl' with he2
          subst he1
          subst he2
          exact ⟨⟨h1, h2⟩, decide_eq_true ⟨hne, hnl, hnm⟩⟩
  · intro hne
    have hmsg : ("Service " ++ orEmpty c.service_code ++
        " not allowed for facility type " ++ facilityFacType V c) ∈
        facilityErrs V c := by
      rw [facilityErrs] at hne ⊢
      by_cases h : facilityTrig V c = true
      · rw [if_pos h]
        exact List.mem_cons_self _ _
      · rw [if_neg h] at hne
        exact absurd rfl hne
    have hall : ("Service " ++ orEmpty c.service_code ++
        " not allowed for facility type " ++ facilityFacType V c) ∈ allErrs V c := by
      rw [allErrs]
      simp only [List.mem_append]
      exact Or.inr hmsg
    constructor
    · rw [run_all_explanations]
      refine List.mem_append.mpr (Or.inl ?_)
      rw [runAcc_eq]
      exact hall
    · rw [runAcc_eq]
      show "Medical" ∈ allTypes V c
      rw [allTypes]
      simp only [Finset.mem_union]
      refine Or.inr ?_
      rw [if_neg hne]
      exact Finset.mem_singleton_self _

/-- A tenant bundle whose diagnoses file lists `N39.0` and whose config has
no further id rules. -/
def c6Bundle : RulesBundle := load_rules_for_tenant [] ["N39.0"] 250 {}

/-- The validator of the `N39.0` scenario. -/
def c6Validator : Validator := Validator.init c6Bundle

/-- A claim carrying diagnosis `N39.0` with service `SRV1003` — a service
with no entry in the service–diagnosis map. -/
def c6Claim : Master :=
  { claim_id := "C6", encounter_type := some "INPATIENT",
    diagnosis_codes := ["N39.0"], service_code := some "SRV1003",
    approval_number := some "APPROVED" }

/-- C6 (counterexample): the production `Validator.run_all` has no hardcoded
`N39.0 → SRV2005` dependency.  A claim carrying diagnosis `N39.0` with
service `SRV1003` (not `SRV2005`) adjudicates to `"No error"` with empty
explanations — no Medical issue is raised, contrary to the claim. -/
theorem n39_not_flagged_in_production :
    "N39.0" ∈ c6Claim.diagnosis_codes ∧
    orEmpty c6Claim.service_code ≠ "SRV2005" ∧
    c6Validator.run_all c6Claim =
      { error_type := "No error", explanations := [], recommended_actions := [],
        approval_correction := none } :=
  of_decide_eq_true (by with_unfolding_all rfl)

/-- C6 (amended): the production `Validator.run_all` service–diagnosis check
is purely map-driven, with no hardcoded `N39.0` dependency.  A service with
no entry in the service–diagnosis map raises no issue; the check fires
exactly when the service code is truthy, its map entry exists and is
non-empty, and no required code matches a provided diagnosis exactly or as a
prefix.  When it fires (and the diagnosis list is non-empty, without which
the enclosing block never runs), its message reaches the final explanations
and the Medical category is recorded.  The default map requires diagnoses
only for the services `SRV2001`, `SRV2005`, `SRV2006`, `SRV2007`, `SRV2008`;
the hardcoded `N39.0 → SRV2005` rule exists only in the modular
`ServiceDiagnosisDependencyRule`, which no code path invokes. -/
theorem service_diagnosis_dependency_production (V : Validator) (c : Master) :
    (alookup V.service_diagnosis_map (orEmpty c.service_code) = none →
      serviceDiagErrs V c = []) ∧
    (serviceDiagErrs V c ≠ [] ↔
      truthy c.service_code = true ∧
      ∃ req, alookup V.service_diagnosis_map (orEmpty c.service_code) = some req ∧
        req ≠ [] ∧
        req.any (fun code =>
          decide (code ∈ c.diagnosis_codes) ||
            c.diagnosis_codes.any (fun d => pyStartsWith d code)) = false) ∧
    (c.diagnosis_codes ≠ [] → serviceDiagErrs V c ≠ [] →
      ("service_code " ++ orEmpty c.service_code ++
        " requires specific diagnoses: " ++
        joinComma (sortStr (dedupFirst (serviceDiagReq V c)))) ∈
        (V.run_all c).explanations ∧
      "Medical" ∈ (V.runAcc c).types) := by
  have htrig : serviceDiagErrs V c ≠ [] ↔ serviceDiagTrig V c = true := by
    rw [serviceDiagErrs]
    by_cases h : serviceDiagTrig V c = true
    · rw [if_pos h]
      exact iff_of_true (by simp) h
    · rw [if_neg h]
      exact iff_of_false (by simp) h
  have hchar : serviceDiagTrig V c = true ↔
      truthy c.service_code = true ∧
      ∃ req, alookup V.service_diagnosis_map (orEmpty c.service_code) = some req ∧
        req ≠ [] ∧
        req.any (fun code =>
          decide (code ∈ c.diagnosis_codes) ||
            c.diagnosis_codes.any (fun d => pyStartsWith d code)) = false := by
    rw [serviceDiagTrig]
    simp only [Bool.and_eq_true]
    rcases hm : alookup V.service_diagnosis_map (orEmpty c.service_code) with _ | req
    · dsimp only
      refine iff_of_false ?_ ?_
      · rintro ⟨_, hx⟩
        exact Bool.noConfusion hx
      · rintro ⟨_, req, hr, _⟩
        exact Option.noConfusion hr
    · dsimp only
      constructor
      · rintro ⟨h1, hx⟩
        rw [Bool.and_eq_true] at hx
        refine ⟨h1, req, rfl, of_decide_eq_true hx.1, ?_⟩
        have h2 := hx.2
        rwa [Bool.not_eq_true'] at h2
      · rintro ⟨h1, req', hr', hne, hfalse⟩
        injection hr' with he
        subst he
        refine ⟨h1, ?_⟩
        rw [Bool.and_eq_true]
        refine ⟨decide_eq_true hne, ?_⟩
        rw [Bool.not_eq_true']
        exact hfalse
  refine ⟨?_, htrig.trans hchar, ?_⟩
  · intro hnone
    rw [serviceDiagErrs, if_neg ?_]
    intro htr
    rcases (hchar.mp htr) with ⟨_, req, hr, _⟩
    rw [hnone] at hr
    exact Option.noConfusion hr
  · intro hd hne
    have hmsg : ("service_code " ++ orEmpty c.service_code ++
        " requires specific diagnoses: " ++
        joinComma (sortStr (dedupFirst (serviceDiagReq V c)))) ∈
        serviceDiagErrs V c := by
      rw [serviceDiagErrs] at hne ⊢
      by_cases h : serviceDiagTrig V c = true
      · rw [if_pos h]
        exact List.mem_cons_self _ _
      · rw [if_neg h] at hne
        exact absurd rfl hne
    have hall : ("service_code " ++ orEmpty c.service_code ++
        " requires specific diagnoses: " ++
        joinComma (sortStr (dedupFirst (serviceDiagReq V c)))) ∈ allErrs V c := by
      rw [allErrs]
      simp only [List.mem_append]
      refine Or.inl (Or.inl (Or.inl (Or.inr ?_)))
      rw [if_pos hd, blockErrs]
      simp only [List.mem_append]
      exact Or.inr hmsg
    constructor
    · rw [run_all_explanations]
      refine List.mem_append.mpr (Or.inl ?_)
      rw [runAcc_eq]
      exact hall
    · rw [runAcc_eq]
      show "Medical" ∈ allTypes V c
      rw [allTypes]
      simp only [Finset.mem_union]
      refine Or.inl (Or.inl (Or.inl (Or.inr ?_)))
      rw [if_pos hd, blockTypes]
      simp only [Finset.mem_union]
      refine Or.inr ?_
      rw [if_neg hne]
      exact Finset.mem_singleton_self _

/-- C3 (code bug): the pipeline stores the static error types
`"Technical error"` / `"Medical error"` (exactly what `run_all` returns and
`_map_error_type` keeps), but the `order` dict of `reconcile_error_type`
only knows the keys `"No error"`, `"Technical"`, `"Medical"`, `"Both"`, so
the stored values rank `0` via `order.get(_, 0)`.  Since every candidate
then ranks at least as high, an LLM proposal replaces them — including
`"No error"`, a downgrade of a Technical-severity result to no error,
contradicting the never-downgrade requirement. -/
theorem reconcile_downgrades_production_error_type :
    (e2eValidator.run_all e2eClaim).error_type = "Technical error" ∧
    errOrder "Technical error" = 0 ∧
    errOrder "Medical error" = 0 ∧
    reconcile_error_type "Technical error" (some "No error") = "No error" ∧
    reconcile_error_type "Medical error" (some "Technical") = "Technical" :=
  of_decide_eq_true (by with_unfolding_all rfl)

end RCM
